import Mathlib

/-!
Verification of the multi-page extraction–merge–validate pipeline of the
OCR insurance-document service.  The Python source is shallowly embedded:
JSON values become an inductive `Json` type, Python `dict`s become
insertion-ordered association lists, and fallible Python code (code that
can raise) returns `Except String`.
-/

set_option maxHeartbeats 1000000

namespace OCRIns

/-- JSON-like Python values flowing through the pipeline: the results of
`json.loads`, plus arbitrary page data handed to the merger.  Objects are
insertion-ordered association lists, matching Python `dict` semantics. -/
inductive Json where
  | null : Json
  | bool (b : Bool) : Json
  | num (n : Int) : Json
  | str (s : String) : Json
  | arr (xs : List Json) : Json
  | obj (kvs : List (String × Json)) : Json

abbrev Obj := List (String × Json)

mutual

/-- Structural equality of JSON values, modelling Python `==` on the
parsed data (dict order matters in our model; all claim inputs are
order-normalised). -/
def Json.beq : Json → Json → Bool
  | .null, .null => true
  | .bool a, .bool b => a = b
  | .num a, .num b => a = b
  | .str a, .str b => a = b
  | .arr xs, .arr ys => beqList xs ys
  | .obj xs, .obj ys => beqObj xs ys
  | _, _ => false

def beqList : List Json → List Json → Bool
  | [], [] => true
  | x :: xs, y :: ys => x.beq y && beqList xs ys
  | _, _ => false

def beqObj : List (String × Json) → List (String × Json) → Bool
  | [], [] => true
  | (k, v) :: xs, (k', v') :: ys => k = k' && v.beq v' && beqObj xs ys
  | _, _ => false

end

/-- Python `item in L` for a list `L`: some element compares equal. -/
def beqMem (l : List Json) (item : Json) : Bool :=
  l.any (fun x => x.beq item)

/-- Split a character list at every occurrence of the separator
character — Python `str.split(c)` for a one-character separator
(structural, so it computes inside the kernel). -/
def splitOnChar (c : Char) : List Char → List (List Char)
  | [] => [[]]
  | x :: xs =>
    match splitOnChar c xs with
    | [] => [[x]]
    | h :: t => if x = c then [] :: h :: t else (x :: h) :: t

/-- Prefix test on character lists. -/
def isPrefixL : List Char → List Char → Bool
  | [], _ => true
  | _ :: _, [] => false
  | a :: as, b :: bs => a = b && isPrefixL as bs

/-- Substring test on character lists (Python `needle in hay`). -/
def containsL (needle : List Char) : List Char → Bool
  | [] => needle.isEmpty
  | x :: xs => isPrefixL needle (x :: xs) || containsL needle xs

/-- Split a character list at the *first* occurrence of a (nonempty)
separator: `some (before, after)` with the separator removed, or `none`
when the separator does not occur. -/
def breakOnL (sep : List Char) : List Char → Option (List Char × List Char)
  | [] => none
  | x :: xs =>
    if isPrefixL sep (x :: xs) then some ([], List.drop sep.length (x :: xs))
    else
      match breakOnL sep xs with
      | none => none
      | some (pre, post) => some (x :: pre, post)

/-- Python `d[k]` lookup on a dict modelled as an assoc list (first match). -/
def lookup {β : Type} (d : List (String × β)) (k : String) : Option β :=
  match d with
  | [] => none
  | (k', v) :: rest => if k' = k then some v else lookup rest k

/-- Python `d[k] = v`: replace the value at the first occurrence of `k`,
keeping its position, or append `(k, v)` when `k` is absent. -/
def setKey {β : Type} (d : List (String × β)) (k : String) (v : β) :
    List (String × β) :=
  match d with
  | [] => [(k, v)]
  | (k', v') :: rest => if k' = k then (k, v) :: rest else (k', v') :: setKey rest k v

/-- Folding a sequence of key/value pairs into a dict with `d[k] = v`
per pair: the semantics of Python `dict.update` once the argument has
been turned into a pair sequence. -/
def dictUpdate (d : Obj) (kvs : Obj) : Obj :=
  kvs.foldl (fun acc kv => setKey acc kv.1 kv.2) d

/-- Python iteration `for item in v`: lists yield their elements, strings
yield their characters as one-character strings, dicts yield their keys;
`None`, booleans and numbers are not iterable and raise `TypeError`. -/
def pyIter : Json → Except String (List Json)
  | .arr xs => .ok xs
  | .str s => .ok (s.data.map (fun c => .str (String.singleton c)))
  | .obj kvs => .ok (kvs.map (fun kv => .str kv.1))
  | _ => .error "TypeError: object is not iterable"

/-- Conversion of one iterated element into a key/value pair, as
`dict.update` does for a non-dict argument: a two-element list whose
first element is a (hashable, here: string) key, or a two-character
string; anything else raises. -/
def pairOf : Json → Except String (String × Json)
  | .arr [.str k, v] => .ok (k, v)
  | .str s =>
      match s.data with
      | [a, b] => .ok (String.singleton a, .str (String.singleton b))
      | _ => .error "ValueError: dictionary update sequence element has wrong length"
  | _ => .error "TypeError: cannot convert dictionary update sequence element"

/-- The key/value pairs Python `dict.update(v)` would fold in:
a dict argument contributes its items; any other argument is iterated
and each element converted by `pairOf`; non-iterables raise. -/
def entriesOf (v : Json) : Except String Obj :=
  match v with
  | .obj kvs => .ok kvs
  | _ => do
    let items ← pyIter v
    items.mapM pairOf

/-- Python `target.update(v)` on a dict `target`, returning the updated
dict or the exception message. -/
def pyUpdate (d : Obj) (v : Json) : Except String Obj := do
  let e ← entriesOf v
  pure (dictUpdate d e)

/-- Python truthiness of a JSON value (`if not x` tests). -/
def pyTruthy : Json → Bool
  | .null => false
  | .bool b => b
  | .num n => n != 0
  | .str s => s ≠ ""
  | .arr xs => !xs.isEmpty
  | .obj kvs => !kvs.isEmpty

/-- Python substring test `needle in hay` on strings. -/
def strContains (hay needle : String) : Bool :=
  containsL needle.data hay.data

/-- Python `k in v` where `k` is a string: dict key membership, list
element membership, substring test on strings; raises on `None`,
booleans and numbers. -/
def pyContains (v : Json) (k : String) : Except String Bool :=
  match v with
  | .obj kvs => .ok ((lookup kvs k).isSome)
  | .arr xs => .ok (beqMem xs (.str k))
  | .str s => .ok (strContains s k)
  | _ => .error "TypeError: argument is not a container"

/-- Python subscripting `v[k]` with a string key: only dicts support it;
lists and strings demand integer indices and raise `TypeError`. -/
def pyGetItem (v : Json) (k : String) : Except String Json :=
  match v with
  | .obj kvs =>
      match lookup kvs k with
      | some x => .ok x
      | none => .error "KeyError"
  | _ => .error "TypeError: indices must be integers"

/-- Python `d.get(k, default)` on a dict (total). -/
def pyGetD (d : Obj) (k : String) (default : Json) : Json :=
  (lookup d k).getD default

/-- Python list indexing `xs[i]` with an `int` index: negative indices
count from the end; out-of-range raises `IndexError`. -/
def pyIndex (xs : List Json) (i : Int) : Except String Json :=
  if h : 0 ≤ i ∧ i.toNat < xs.length then
    .ok (xs.get ⟨i.toNat, h.2⟩)
  else if h' : i < 0 ∧ 0 ≤ i + xs.length ∧ (i + xs.length).toNat < xs.length then
    .ok (xs.get ⟨(i + xs.length).toNat, h'.2.2⟩)
  else
    .error "IndexError: list index out of range"

/-! ## Result merger (`src/utils/merger.py`, `ResultMerger`) -/

/-- The six fixed top-level section keys of the merged claim record, in
the order in which `merge_results` initialises them. -/
def sectionKeys : List String :=
  ["policy_details", "insured_info", "benefits_to_claim",
   "payment_instructions", "declaration", "physician_report"]

/-- The initial `merged` dict of `ResultMerger.merge_results`: five empty
objects and one empty list. -/
def emptyMerged : Obj :=
  [("policy_details", .obj []), ("insured_info", .obj []),
   ("benefits_to_claim", .arr []), ("payment_instructions", .obj []),
   ("declaration", .obj []), ("physician_report", .obj [])]

/-- One iteration of the inner `for key in merged.keys()` loop of
`merge_results`: if `key` is in the page data, either extend the list
section with the page items not already present (list comprehension is
built against the pre-extend list), or overlay the object section via
`dict.update`; both container operations can raise for ill-typed page
values, which the `Except` layer records. -/
def mergeKey (merged : Obj) (page : Obj) (key : String) : Except String Obj :=
  match lookup page key with
  | none => .ok merged
  | some pv =>
    match lookup merged key with
    | some (.arr cur) => do
        let items ← pyIter pv
        .ok (setKey merged key
          (.arr (cur ++ items.filter (fun it => !(beqMem cur it)))))
    | some (.obj cur) => do
        let cur' ← pyUpdate cur pv
        .ok (setKey merged key (.obj cur'))
    | _ => .ok merged

/-- One iteration of the outer loop of `merge_results`: a page result
that is not a dict is skipped entirely; otherwise each key of the
current merged record is folded in by `mergeKey`. -/
def mergePage (merged : Obj) (page : Json) : Except String Obj :=
  match page with
  | .obj pkvs => (merged.map Prod.fst).foldlM (fun acc k => mergeKey acc pkvs k) merged
  | _ => .ok merged

/-- `ResultMerger.merge_results`, returning the merged dict. -/
def mergeResultsObj (page_results : List Json) : Except String Obj :=
  page_results.foldlM mergePage emptyMerged

/-- `ResultMerger.merge_results` as a JSON value. -/
def mergeResults (page_results : List Json) : Except String Json :=
  (mergeResultsObj page_results).map .obj

/-- Classification of the dotted-path navigation loop of
`merge_with_priority` (`target = target.get(key, {})`): `live` means the
final `target` is a dict still reachable from the merged record (every
intermediate key present with a dict value); `lost` means some
intermediate key was missing, so `get` returned a *fresh* default `{}`
that is not attached to the record — later writes into it are discarded;
`nondict` means navigation ended on a non-dict value, so the final item
assignment would raise.  A non-dict met *before* the final step raises
`AttributeError` at the next `.get`. -/
inductive NavClass where
  | live
  | lost
  | nondict

/-- Outcome of the navigation loop of `merge_with_priority` over
`keys[:-1]`, faithful to Python aliasing semantics as described at
`NavClass`. -/
def classify (d : Obj) : List String → Except String NavClass
  | [] => .ok .live
  | k :: rest =>
    match lookup d k with
    | some (.obj inner) => classify inner rest
    | some _ =>
        match rest with
        | [] => .ok .nondict
        | _ :: _ => .error "AttributeError: object has no attribute get"
    | none => .ok .lost

/-- The in-place write `target[keys[-1]] = value` seen functionally from
the merged record, in the `live` case: every intermediate key is present
with a dict value, and the final assignment is visible at the full
path. -/
def setPathLive (d : Obj) : List String → String → Json → Obj
  | [], last, v => setKey d last v
  | k :: rest, last, v =>
    match lookup d k with
    | some (.obj inner) => setKey d k (.obj (setPathLive inner rest last v))
    | _ => d

/-- One iteration of the priority loop of `merge_with_priority` for an
entry `field ↦ p`: guarded by `p <= len(page_results)`, it fetches page
`p - 1` (Python indexing, so non-positive `p` counts from the end),
splits the field on dots, navigates `keys[:-1]`, and if the *final*
segment is a top-level key of that page's raw result, assigns that
page-top-level value to the navigation target.  Writes after a missing
intermediate key land in a discarded fresh dict (`lost`). -/
def applyEntry (pages : List Json) (merged : Obj) (field : String) (p : Int) :
    Except String Obj :=
  if p ≤ (pages.length : Int) then do
    let page ← pyIndex pages (p - 1)
    let keys := (splitOnChar '.' field.data).map (fun l => String.mk l)
    let path := keys.dropLast
    let last := keys.getLastD ""
    let cls ← classify merged path
    let mem ← pyContains page last
    if mem then do
      let v ← pyGetItem page last
      match cls with
      | .live => .ok (setPathLive merged path last v)
      | .lost => .ok merged
      | .nondict => .error "TypeError: object does not support item assignment"
    else .ok merged
  else .ok merged

/-- `ResultMerger.merge_with_priority`: the standard merge followed by
the priority entries in map order. -/
def mergeWithPriority (page_results : List Json)
    (priority_pages : List (String × Int)) : Except String Json := do
  let m ← mergeResultsObj page_results
  let m' ← priority_pages.foldlM
    (fun acc fp => applyEntry page_results acc fp.1 fp.2) m
  pure (.obj m')

/-- Value stored at a (nonempty) dotted path in a dict, for stating
where priority values end up. -/
def getAtPath (d : Obj) : List String → Option Json
  | [] => none
  | [k] => lookup d k
  | k :: rest =>
    match lookup d k with
    | some (.obj inner) => getAtPath inner rest
    | _ => none

/-! ## Data validator (`src/utils/validator.py`, `DataValidator`) -/

/-- Numeric value of an all-digit character list. -/
def digitsToNat (l : List Char) : Nat :=
  l.foldl (fun n c => n * 10 + (c.toNat - 48)) 0

/-- Nonempty all-ASCII-digit character list. -/
def isDigits (l : List Char) : Bool :=
  !l.isEmpty && l.all Char.isDigit

/-- The `%d` field of `strptime`: one or two digits, value 1–31
(zero-padding optional, per CPython `_strptime` regex
`3[01]|[12]\d|0[1-9]|[1-9]`). -/
def dayField (l : List Char) : Bool :=
  isDigits l && l.length ≤ 2 && 1 ≤ digitsToNat l && digitsToNat l ≤ 31

/-- The `%m` field of `strptime`: one or two digits, value 1–12. -/
def monthField (l : List Char) : Bool :=
  isDigits l && l.length ≤ 2 && 1 ≤ digitsToNat l && digitsToNat l ≤ 12

/-- The `%Y` field of `strptime`: exactly four digits
(regex `\d\d\d\d`). -/
def yearField (l : List Char) : Bool :=
  isDigits l && l.length = 4

/-- Gregorian leap-year rule, as used by `datetime`. -/
def isLeap (y : Nat) : Bool :=
  y % 4 = 0 && (y % 100 ≠ 0 || y % 400 = 0)

/-- Length of month `m` in year `y`. -/
def daysInMonth (m y : Nat) : Nat :=
  if m = 2 then (if isLeap y then 29 else 28)
  else if m = 4 || m = 6 || m = 9 || m = 11 then 30 else 31

/-- `DataValidator.validate_date` at its default format `"%d/%m/%Y"`
(every call site in the repository uses the default).  True exactly when
`datetime.strptime(date_str, "%d/%m/%Y")` succeeds: the string is
`day/month/year` with day and month of one or two (ASCII) digits in
range, the year exactly four digits and at least 1 (`datetime.MINYEAR`),
the whole string consumed, and the day valid for the month of that year
(`datetime` raises `ValueError` otherwise, which the function catches
and converts to `False`). -/
def validate_date (date_str : String) : Bool :=
  match splitOnChar '/' date_str.data with
  | [d, m, y] =>
    dayField d && monthField m && yearField y && 1 ≤ digitsToNat y &&
    digitsToNat d ≤ daysInMonth (digitsToNat m) (digitsToNat y)
  | _ => false

/-- `validate_date` applied to an arbitrary JSON value: `strptime`
raises `TypeError` on non-strings, which the function catches, so only
strings can validate. -/
def validateDateJson : Json → Bool
  | .str s => validate_date s
  | _ => false

/-- `merged_data.get(k, {})` followed by use of the result as a dict:
raises `AttributeError` if `merged_data` or a present section value is
not a dict. -/
def sectionObj (merged : Json) (k : String) : Except String Obj :=
  match merged with
  | .obj m =>
    match lookup m k with
    | none => .ok []
    | some (.obj s) => .ok s
    | some _ => .error "AttributeError: object has no attribute get"
  | _ => .error "AttributeError: object has no attribute get"

/-- `DataValidator.validate_medical_form`: per-section required-field
checks in source order, then the dict comprehension dropping sections
with an empty error list. -/
def validate_medical_form (merged_data : Json) :
    Except String (List (String × List String)) := do
  let policy ← sectionObj merged_data "policy_details"
  let perr := if !pyTruthy (pyGetD policy "policy_no" .null)
    then ["Policy number missing"] else []
  let insured ← sectionObj merged_data "insured_info"
  let ierr1 := if !pyTruthy (pyGetD insured "name" .null)
    then ["Insured name missing"] else []
  let dob := pyGetD insured "date_of_birth" .null
  let ierr2 := if pyTruthy dob && !validateDateJson dob
    then ["Invalid date of birth format"] else []
  let payment ← sectionObj merged_data "payment_instructions"
  let payerr := if !pyTruthy (pyGetD payment "payment_method" .null)
    then ["Payment method missing"] else []
  let decl ← sectionObj merged_data "declaration"
  let derr1 := if !pyTruthy (pyGetD decl "signatory_name" .null)
    then ["Signatory name missing"] else []
  let sig := pyGetD decl "signature_date" .null
  let derr2 := if pyTruthy sig && !validateDateJson sig
    then ["Invalid signature date format"] else []
  let phys ← sectionObj merged_data "physician_report"
  let pherr := if !pyTruthy (pyGetD phys "final_diagnosis" .null)
    then ["Final diagnosis missing"] else []
  let raw := [("policy_details", perr), ("insured_info", ierr1 ++ ierr2),
              ("payment_instructions", payerr),
              ("declaration", derr1 ++ derr2), ("physician_report", pherr)]
  pure (raw.filter (fun kv => !kv.2.isEmpty))

/-! ## Prompt catalog (`src/settings/prompts/__init__.py`, `PromptFactory`) -/

/-- One entry of the `PromptFactory._prompts` class dict. -/
structure PromptConfig where
  title : String
  prompt : String
  json_structure : Json

/-- The `_prompts[1]` entry of `PromptFactory`. -/
def page1Config : PromptConfig where
  title := "Policy, Insured, Prior Treatment, Accident, and Condition Details"
  prompt :=
    "Bạn là chuyên gia trích xuất dữ liệu. Phân tích hình ảnh Biểu mẫu Yêu cầu Bồi thường này (Trang 1). \n\nTrích xuất **CHÍNH XÁC NỘI DUNG HIỂN THỊ** (bao gồm Hán tự, chữ cái, số) cho các trường sau:\n1. Thông tin Hợp đồng và Người được bảo hiểm:\n    - Policy No./Cert No. in Claim Sequence \n    - Name of Policyowner/Employee/Member (Đọc chính xác Hán tự)\n    - Name of Insured (Đọc chính xác Hán tự)\n    - Occupation (Đọc chính xác Hán tự)\n    - HKID/Passport No. (Đọc chính xác ký tự cuối cùng trong ngoặc đơn)\n    - Date of Birth (format: DD/MM/YYYY)\n    - Sex (Male/Female)\n    - Benefits to Claim (Trích xuất TẤT CẢ các loại quyền lợi có ô được đánh dấu, dù là dấu tích hay ký hiệu X)\n\n2. Thông tin điều trị trước đó (Mục 4 - Chỉ trích xuất nếu được chọn là Yes):\n    - Doctor\x27s Name (Đọc chính xác chữ viết tay)\n    - Address (Đọc chính xác địa chỉ được viết tay)\n    - Treatment Date (DD/MM/YYYY)\n\n3. Thông tin Tai nạn (Mục 5):\n    - Was the hospitalization/surgery a result of an accident? (Yes/No)\n    - Date, Time, Place, Brief Description (Nếu Yes)\n\n4. Thông tin Trạng thái Yêu cầu (Mục 3 - Submitted to other company?):\n    - Answer (Yes/No)\n    - If Yes, Name of Insurance Company, Policy No., Type of claim\n\nTrả lời chỉ bằng JSON với cấu trúc sau:\n\x7b\n  \"policy_details\": \x7b\n    \"policy_no\": \"...\",\n    \"policyowner_name\": \"...\"\n  \x7d,\n  \"insured_info\": \x7b\n    \"name\": \"...\",\n    \"occupation\": \"...\",\n    \"id_passport\": \"...\",\n    \"date_of_birth\": \"DD/MM/YYYY\",\n    \"sex\": \"Male/Female\"\n  \x7d,\n  \"benefits_to_claim\": [\"benefit1\", \"benefit2\", \"...\"],\n  \"prior_treatment_info\": \x7b\n    \"had_prior_treatment\": true/false,\n    \"doctor_name\": \"...\",\n    \"address\": \"...\",\n    \"treatment_date\": \"DD/MM/YYYY\"\n  \x7d,\n  \"accident_info\": \x7b\n    \"is_result_of_accident\": true/false,\n    \"date\": \"DD/MM/YYYY\",\n    \"time\": \"...\",\n    \"place\": \"...\",\n    \"description\": \"...\"\n  \x7d,\n  \"other_claim_submission\": \x7b\n    \"submitted_to_other_company\": true/false,\n    \"company_name\": \"...\",\n    \"policy_no\": \"...\",\n    \"claim_type\": [\"type1\", \"...\"]\n  \x7d\n\x7d\n\nChỉ trả về JSON."
  json_structure := .obj [("policy_details", .obj []), ("insured_info", .obj []), ("benefits_to_claim", .arr []), ("prior_treatment_info", .obj []), ("accident_info", .obj []), ("other_claim_submission", .obj [])]

/-- The `_prompts[2]` entry of `PromptFactory`. -/
def page2Config : PromptConfig where
  title := "Payment Instructions"
  prompt :=
    "Phân tích hình ảnh Trang 2 (Payment Instructions). \n\nTrích xuất các trường được điền trong phần \x27Direct Credit\x27 hoặc \x27Cheque\x27, **ghi rõ từng phần số tài khoản**:\n- Payment Method (Kiểm tra ô được đánh dấu, phải là e-Payout hoặc Cheque)\n- Name of account holder (Chỉ trích xuất Ho TAI WAI)\n- Bank Name (Chú ý Hán tự)\n- Bank No. (Chỉ 3 số đầu của chuỗi 012000123456789)\n- Branch No. (Chỉ 3 số tiếp theo, ví dụ: 000)\n- Bank Account No. (Các số còn lại, ví dụ: 123456789)\n\nTrả lời chỉ bằng JSON với cấu trúc sau:\n\x7b\n  \"payment_instructions\": \x7b\n    \"payment_method\": \"e-Payout/Cheque\",\n    \"account_holder_name\": \"...\",\n    \"bank_name\": \"...\",\n    \"bank_no\": \"...\",\n    \"branch_no\": \"...\",\n    \"bank_account_no\": \"...\"\n  \x7d\n\x7d\n\nChỉ trả về JSON."
  json_structure := .obj [("payment_instructions", .obj [])]

/-- The `_prompts[3]` entry of `PromptFactory`. -/
def page3Config : PromptConfig where
  title := "Declaration & Authorization"
  prompt :=
    "Phân tích hình ảnh Trang 3 (Declaration and Authorization). \n\nTrích xuất:\n- Name (In BLOCK LETTERS)\n- Date (DD/MM/YYYY)\n- Has signature (true/false)\n\nTrả lời chỉ bằng JSON:\n\x7b\n  \"declaration\": \x7b\n    \"signatory_name\": \"...\",\n    \"signature_date\": \"DD/MM/YYYY\",\n    \"has_signature\": true/false\n  \x7d\n\x7d\n\nChỉ trả về JSON."
  json_structure := .obj [("declaration", .obj [])]

/-- The `_prompts[4]` entry of `PromptFactory`. -/
def page4Config : PromptConfig where
  title := "PART II - Physician Report (Full Details)"
  prompt :=
    "Phân tích hình ảnh Trang 4 (PART II - Physician Section). \n\nĐọc chính xác chữ viết tay của bác sĩ và thuật ngữ y tế. Trích xuất tất cả các mục sau:\n1. Thông tin Bệnh nhân & Ngày tháng:\n    - Patient Name\n    - Date of Admission (DD/MM/YYYY)\n    - Date of Discharge (DD/MM/YYYY)\n    - Level of hospital ward (Semi-private được đánh dấu)\n\n2. Lịch sử Lâm sàng (Clinical History - 1):\n    - Date patient first consulted you (DD/MM/YYYY)\n    - Symptom duration (months/years)\n    - Symptom(s)/complaint(s) relating to this hospitalization/treatment\n\n3. Chi tiết Chẩn đoán và Phẫu thuật (Hospitalization Details - 2):\n    - Final Diagnosis (Trích xuất các dòng chữ viết tay chính xác về chẩn đoán)\n    - Operation procedure(s) performed (Liệt kê từng thủ thuật, chú ý chữ viết tay)\n    - Mode of Anaesthesia (Chỉ trích xuất loại được đánh dấu: GA/LA/MAC/sedation - MAC được đánh dấu)\n    - Can the medical test(s) and the operation procedure be done on an outpatient basis? (Yes/No)\n    - If No, reason(s) (Chú ý: Severe Anaemia need intravenous iron therapy)\n    - Any comorbidity? (Yes/No)\n    - Is it a case of emergency? (Yes/No)\n\n4. Ý kiến Chuyên môn (Professional Comment - 3):\n    - Was the hospitalization a result of recurrent episode or chronic illness? (Yes/No)\n    - Associated conditions (Trích xuất TẤT CẢ các ô được đánh dấu - N/A được đánh dấu)\n\n5. Thông tin Bác sĩ:\n    - Doctor\x27s signature date (DD/MM/YYYY)\n    - Name of attending physician/surgeon & qualifications\n    - Address and Telephone No. (Nếu có)\n\nTrả lời chỉ bằng JSON với cấu trúc sau:\n\x7b\n  \"physician_report\": \x7b\n    \"patient_name\": \"...\",\n    \"admission_date\": \"DD/MM/YYYY\",\n    \"discharge_date\": \"DD/MM/YYYY\",\n    \"hospital_ward_level\": \"...\",\n    \"clinical_history\": \x7b\n      \"first_consult_date\": \"DD/MM/YYYY\",\n      \"symptom_duration\": \"...\",\n      \"symptoms\": \"...\"\n    \x7d,\n    \"diagnosis_surgery\": \x7b\n      \"final_diagnosis\": \"...\",\n      \"operation_procedures\": [\"...\", \"...\"],\n      \"mode_of_anaesthesia\": \"...\",\n      \"outpatient_possible\": true/false,\n      \"outpatient_reason\": \"...\",\n      \"comorbidity\": true/false,\n      \"is_emergency\": true/false\n    \x7d,\n    \"professional_comment\": \x7b\n      \"is_recurrent_or_chronic\": true/false,\n      \"associated_conditions\": [\"condition1\", \"...\"]\n    \x7d,\n    \"doctor_info\": \x7b\n      \"signature_date\": \"DD/MM/YYYY\",\n      \"name_qualifications\": \"...\",\n      \"address_tel\": \"...\"\n    \x7d\n  \x7d\n\x7d\n\nChỉ trả về JSON."
  json_structure := .obj [("physician_report", .obj [])]

/-- The `PagePrompt` dataclass. -/
structure PagePrompt where
  page_number : Int
  title : String
  prompt : String
  json_structure : Json

/-- `cls._prompts.get(page_number, ...)`: lookup in the class dict keyed
by the integer page numbers 1–4. -/
def promptsLookup (n : Int) : Option PromptConfig :=
  if n = 1 then some page1Config
  else if n = 2 then some page2Config
  else if n = 3 then some page3Config
  else if n = 4 then some page4Config
  else none

/-- `PromptFactory.get_page_prompt`: total lookup with fallback to the
page-4 entry, copying the requested page number into the result. -/
def get_page_prompt (page_number : Int) : PagePrompt :=
  let config := (promptsLookup page_number).getD page4Config
  { page_number := page_number
    title := config.title
    prompt := config.prompt
    json_structure := config.json_structure }

/-! ## Page extractor

`GeminiExtractor` is imported by `src/api/v1/endpoints/upload.py` from
`src.extraction.extractor`, but that module only defines `DataExtractor`;
the `GeminiExtractor` class itself is not part of the source tree, so its
per-page extraction is modelled from the spec (§4.2). -/

/-- Modelled from the spec: the tolerant code-fence strip of the missing
`GeminiExtractor` (§4.2) — if the text contains a fenced block marked as
JSON, take the content between the first such fence pair (up to the end
when no closing fence follows); else if it contains any fence pair, take
the content between the first generic pair; else use the raw text. -/
def stripFences (s : String) : String :=
  match breakOnL "\x60\x60\x60json".data s.data with
  | some (_, afterJson) =>
    match breakOnL "\x60\x60\x60".data afterJson with
    | some (content, _) => String.mk content
    | none => String.mk afterJson
  | none =>
    match breakOnL "\x60\x60\x60".data s.data with
    | some (_, afterOpen) =>
      match breakOnL "\x60\x60\x60".data afterOpen with
      | some (content, _) => String.mk content
      | none => s
    | none => s

/-- Modelled from the spec: `GeminiExtractor.extract_page` (§4.2), the
class being missing from the source tree.  The model capability `gen`
and the strict JSON parser `parse` are abstract parameters: `gen` may
fail (any invocation failure, including timeouts), and `parse` returns
`none` exactly when strict JSON parsing of its (whitespace-trimmed)
input fails.  On invocation failure the error record is produced; on
parse failure the raw-fallback record carries the original reply text;
otherwise the parsed value is returned.  The function is total: no
failure propagates past the page boundary. -/
def extractPage {α : Type} (gen : String → α → Except String String)
    (parse : String → Option Json) (image : α) (n : Int) : Json :=
  match gen (get_page_prompt n).prompt image with
  | .error msg =>
      .obj [("error", .str ("Extraction failed for page " ++ toString n ++
               ": " ++ msg)),
            ("page", .num n)]
  | .ok text =>
    match parse ((stripFences text).trim) with
    | some j => j
    | none => .obj [("raw_response", .str text),
                    ("note", .str "Failed to parse as JSON")]

/-- Modelled from the spec: the sequential page loop of
`GeminiExtractor.extract_multipage` (§4.2), appending one
`extractPage` result per page, numbering pages from `n`. -/
def extractPagesFrom {α : Type} (gen : String → α → Except String String)
    (parse : String → Option Json) : List α → Int → List Json
  | [], _ => []
  | img :: rest, n => extractPage gen parse img n :: extractPagesFrom gen parse rest (n + 1)

/-- Modelled from the spec: `GeminiExtractor.extract_multipage` (§4.2) —
at most `maxPages` pages (default 4), in ascending page order, pages
numbered from 1.  The inter-call pacing delay has no effect on the
returned data and is not modelled. -/
def extractMultipage {α : Type} (gen : String → α → Except String String)
    (parse : String → Option Json) (maxPages : Nat) (images : List α) : List Json :=
  extractPagesFrom gen parse (images.take maxPages) 1

/-- Whether a JSON value is a Python dict (`isinstance(x, dict)`). -/
def Json.isObj : Json → Bool
  | .obj _ => true
  | _ => false

/-! ## Association-list lemmas -/

/-- Keys of a dict are pairwise distinct (true of every real Python
dict; preserved by all our dict operations). -/
def NodupKeys {β : Type} (d : List (String × β)) : Prop :=
  (d.map Prod.fst).Nodup

mutual

theorem Json.beq_refl : ∀ a : Json, Json.beq a a = true
  | .null => rfl
  | .bool b => by simp [Json.beq]
  | .num n => by simp [Json.beq]
  | .str s => by simp [Json.beq]
  | .arr xs => by simp [Json.beq, beqList_refl xs]
  | .obj kvs => by simp [Json.beq, beqObj_refl kvs]

theorem beqList_refl : ∀ xs : List Json, beqList xs xs = true
  | [] => rfl
  | x :: xs => by simp [beqList, Json.beq_refl x, beqList_refl xs]

theorem beqObj_refl : ∀ kvs : List (String × Json), beqObj kvs kvs = true
  | [] => rfl
  | (k, v) :: rest => by simp [beqObj, Json.beq_refl v, beqObj_refl rest]

end

theorem beqMem_of_mem {l : List Json} {x : Json} (h : x ∈ l) : beqMem l x = true := by
  simp only [beqMem, List.any_eq_true]
  exact ⟨x, h, Json.beq_refl x⟩

theorem lookup_setKey_self {β : Type} (d : List (String × β)) (k : String) (v : β) :
    lookup (setKey d k v) k = some v := by
  induction d with
  | nil => simp [setKey, lookup]
  | cons hd tl ih =>
    obtain ⟨k', v'⟩ := hd
    by_cases h : k' = k
    · simp [setKey, lookup, h]
    · simp [setKey, lookup, h, ih]

theorem lookup_setKey_ne {β : Type} (d : List (String × β)) {k k' : String} (v : β)
    (h : k' ≠ k) : lookup (setKey d k v) k' = lookup d k' := by
  have hne : ¬(k = k') := fun e => h e.symm
  induction d with
  | nil => simp [setKey, lookup, hne]
  | cons hd tl ih =>
    obtain ⟨k₀, v₀⟩ := hd
    by_cases h₀ : k₀ = k
    · subst h₀
      simp [setKey, lookup, hne]
    · simp [setKey, lookup, h₀, ih]

theorem lookup_eq_none {β : Type} (d : List (String × β)) (k : String)
    (h : k ∉ d.map Prod.fst) : lookup d k = none := by
  induction d with
  | nil => rfl
  | cons hd tl ih =>
    obtain ⟨k₀, v₀⟩ := hd
    simp only [List.map_cons, List.mem_cons] at h
    push_neg at h
    have hne : ¬(k₀ = k) := fun e => h.1 e.symm
    simp [lookup, hne, ih h.2]

theorem map_fst_setKey {β : Type} (d : List (String × β)) (k : String) (v : β) :
    (setKey d k v).map Prod.fst =
      if k ∈ d.map Prod.fst then d.map Prod.fst else d.map Prod.fst ++ [k] := by
  induction d with
  | nil => simp [setKey]
  | cons hd tl ih =>
    obtain ⟨k₀, v₀⟩ := hd
    by_cases h₀ : k₀ = k
    · subst h₀
      simp [setKey]
    · have hkk : ¬(k = k₀) := fun e => h₀ e.symm
      by_cases hm : k ∈ tl.map Prod.fst
      · simp [setKey, h₀, ih, hm, hkk]
      · simp [setKey, h₀, ih, hm, hkk]

theorem setKey_self_eq {β : Type} (d : List (String × β)) {k : String} {v : β}
    (h : lookup d k = some v) : setKey d k v = d := by
  induction d with
  | nil => simp [lookup] at h
  | cons hd tl ih =>
    obtain ⟨k₀, v₀⟩ := hd
    by_cases h₀ : k₀ = k
    · subst h₀
      simp only [lookup, if_true, eq_self_iff_true, Option.some.injEq] at h
      subst h
      simp [setKey]
    · simp only [lookup, if_neg h₀] at h
      simp [setKey, h₀, ih h]

theorem nodupKeys_setKey {β : Type} {d : List (String × β)} (k : String) (v : β)
    (h : NodupKeys d) : NodupKeys (setKey d k v) := by
  unfold NodupKeys at *
  rw [map_fst_setKey]
  by_cases hm : k ∈ d.map Prod.fst
  · simpa [hm] using h
  · simp only [hm, if_false]
    refine List.Nodup.append h (List.nodup_singleton k) ?_
    intro a ha hb
    rw [List.mem_singleton] at hb
    subst hb
    exact hm ha

/-- Left-biased choice on options (explicit form of `Option.orElse`). -/
def orD {β : Type} (a b : Option β) : Option β :=
  match a with
  | some v => some v
  | none => b

theorem orD_idem_assoc {β : Type} (a b : Option β) : orD a (orD a b) = orD a b := by
  cases a <;> rfl

/-- Value a sequence of `d[k] = v` assignments leaves at `k`: the last
entry for `k` wins. -/
def lastLookup {β : Type} (kvs : List (String × β)) (k : String) : Option β :=
  match kvs with
  | [] => none
  | (k', v) :: rest => orD (lastLookup rest k) (if k' = k then some v else none)

theorem lookup_dictUpdate (d : Obj) (kvs : Obj) (k : String) :
    lookup (dictUpdate d kvs) k = orD (lastLookup kvs k) (lookup d k) := by
  induction kvs generalizing d with
  | nil => simp [dictUpdate, lastLookup, orD]
  | cons hd tl ih =>
    obtain ⟨k₁, v₁⟩ := hd
    show lookup (dictUpdate (setKey d k₁ v₁) tl) k = _
    rw [ih]
    by_cases h₁ : k₁ = k
    · rw [h₁, lookup_setKey_self]
      cases hl : lastLookup tl k <;> simp [lastLookup, hl, h₁, orD]
    · rw [lookup_setKey_ne _ _ (fun e => h₁ e.symm)]
      cases hl : lastLookup tl k <;> simp [lastLookup, hl, h₁, orD]

/-- Key list produced by folding assignments over an existing key list. -/
def keysFold (ks : List String) (kvs : Obj) : List String :=
  kvs.foldl (fun acc kv => if kv.1 ∈ acc then acc else acc ++ [kv.1]) ks

theorem map_fst_dictUpdate (d : Obj) (kvs : Obj) :
    (dictUpdate d kvs).map Prod.fst = keysFold (d.map Prod.fst) kvs := by
  induction kvs generalizing d with
  | nil => simp [dictUpdate, keysFold]
  | cons hd tl ih =>
    obtain ⟨k₁, v₁⟩ := hd
    show (dictUpdate (setKey d k₁ v₁) tl).map Prod.fst = _
    rw [ih, map_fst_setKey]
    rfl

theorem mem_keysFold_of_mem {ks : List String} {k : String} (kvs : Obj)
    (h : k ∈ ks) : k ∈ keysFold ks kvs := by
  induction kvs generalizing ks with
  | nil => exact h
  | cons hd tl ih =>
    show k ∈ keysFold (if hd.1 ∈ ks then ks else ks ++ [hd.1]) tl
    apply ih
    by_cases hm : hd.1 ∈ ks <;> simp [hm, h]

theorem mem_keysFold_of_mem_kvs {ks : List String} {k : String} {kvs : Obj}
    (h : ∃ v, (k, v) ∈ kvs) : k ∈ keysFold ks kvs := by
  induction kvs generalizing ks with
  | nil => simp at h
  | cons hd tl ih =>
    obtain ⟨v, hv⟩ := h
    show k ∈ keysFold (if hd.1 ∈ ks then ks else ks ++ [hd.1]) tl
    rcases List.mem_cons.mp hv with he | ht
    · subst he
      apply mem_keysFold_of_mem
      by_cases hm : k ∈ ks <;> simp [hm]
    · exact ih ⟨v, ht⟩

theorem keysFold_noop {ks : List String} {kvs : Obj}
    (h : ∀ kv ∈ kvs, kv.1 ∈ ks) : keysFold ks kvs = ks := by
  induction kvs with
  | nil => rfl
  | cons hd tl ih =>
    show keysFold (if hd.1 ∈ ks then ks else ks ++ [hd.1]) tl = ks
    rw [if_pos (h hd (List.mem_cons_self hd tl))]
    exact ih (fun kv hkv => h kv (List.mem_cons_of_mem hd hkv))

theorem nodupKeys_dictUpdate {d : Obj} (kvs : Obj) (h : NodupKeys d) :
    NodupKeys (dictUpdate d kvs) := by
  induction kvs generalizing d with
  | nil => exact h
  | cons hd tl ih =>
    show NodupKeys (dictUpdate (setKey d hd.1 hd.2) tl)
    exact ih (nodupKeys_setKey hd.1 hd.2 h)

/-- Extensionality for dicts with distinct keys: same key list and same
lookups force equality. -/
theorem ext_nodupKeys {β : Type} :
    ∀ (X Y : List (String × β)), NodupKeys X →
      X.map Prod.fst = Y.map Prod.fst → (∀ k, lookup X k = lookup Y k) → X = Y
  | [], [], _, _, _ => rfl
  | [], (k, v) :: ys, _, hk, _ => by simp at hk
  | (k, v) :: xs, [], _, hk, _ => by simp at hk
  | (k, v) :: xs, (k', v') :: ys, hnd, hk, hl => by
    simp only [List.map_cons, List.cons.injEq] at hk
    obtain ⟨hkk, hktl⟩ := hk
    subst hkk
    have hv : v = v' := by
      have hlv := hl k
      simpa [lookup] using hlv
    subst hv
    have hndtl : NodupKeys xs := by
      unfold NodupKeys at *
      exact (List.nodup_cons.mp hnd).2
    have hknotin : k ∉ xs.map Prod.fst := by
      unfold NodupKeys at hnd
      exact (List.nodup_cons.mp hnd).1
    have hltl : ∀ k₀, lookup xs k₀ = lookup ys k₀ := by
      intro k₀
      by_cases hk₀ : k₀ = k
      · subst hk₀
        rw [lookup_eq_none xs k₀ hknotin, lookup_eq_none ys k₀ (hktl ▸ hknotin)]
      · have hlk := hl k₀
        have hne : ¬(k = k₀) := fun e => hk₀ e.symm
        simpa [lookup, hne] using hlk
    rw [ext_nodupKeys xs ys hndtl hktl hltl]

/-- Applying the same `dict.update` entry sequence twice is the same as
applying it once (for a dict with distinct keys). -/
theorem dictUpdate_twice {d : Obj} (kvs : Obj) (h : NodupKeys d) :
    dictUpdate (dictUpdate d kvs) kvs = dictUpdate d kvs := by
  apply ext_nodupKeys _ _ (nodupKeys_dictUpdate kvs (nodupKeys_dictUpdate kvs h))
  · rw [map_fst_dictUpdate, map_fst_dictUpdate]
    exact keysFold_noop (fun kv hkv => mem_keysFold_of_mem_kvs ⟨kv.2, hkv⟩)
  · intro k
    rw [lookup_dictUpdate, lookup_dictUpdate]
    exact orD_idem_assoc _ _

/-! ## The merged record in canonical shape -/

/-- A merged record in its canonical shape: the six fixed section keys
in initialisation order, five object sections and the list section. -/
def stdRecord (pol ins : Obj) (ben : List Json) (pay dec phy : Obj) : Obj :=
  [("policy_details", .obj pol), ("insured_info", .obj ins),
   ("benefits_to_claim", .arr ben), ("payment_instructions", .obj pay),
   ("declaration", .obj dec), ("physician_report", .obj phy)]

theorem emptyMerged_std : emptyMerged = stdRecord [] [] [] [] [] [] := rfl

/-- Effect of one `mergeKey` call on an object section's contents
(`none` = key absent from the page). -/
def updObj (c : Obj) (pv : Option Json) : Except String Obj :=
  match pv with
  | none => .ok c
  | some v => pyUpdate c v

/-- Effect of one `mergeKey` call on the list section's contents. -/
def updArr (c : List Json) (pv : Option Json) : Except String (List Json) :=
  match pv with
  | none => .ok c
  | some v => do
    let items ← pyIter v
    .ok (c ++ items.filter (fun it => !(beqMem c it)))

theorem mergeKey_std_1 (pol ins : Obj) (ben : List Json) (pay dec phy : Obj) (pk : Obj) :
    mergeKey (stdRecord pol ins ben pay dec phy) pk "policy_details" =
      (updObj pol (lookup pk "policy_details")).map
        (fun pol' => stdRecord pol' ins ben pay dec phy) := by
  unfold mergeKey updObj
  cases lookup pk "policy_details" with
  | none => rfl
  | some pv =>
    show (do
      let cur' ← pyUpdate pol pv
      Except.ok (setKey (stdRecord pol ins ben pay dec phy) "policy_details" (.obj cur'))) =
      Except.map (fun pol' => stdRecord pol' ins ben pay dec phy) (pyUpdate pol pv)
    cases pyUpdate pol pv <;> rfl

theorem mergeKey_std_2 (pol ins : Obj) (ben : List Json) (pay dec phy : Obj) (pk : Obj) :
    mergeKey (stdRecord pol ins ben pay dec phy) pk "insured_info" =
      (updObj ins (lookup pk "insured_info")).map
        (fun ins' => stdRecord pol ins' ben pay dec phy) := by
  unfold mergeKey updObj
  cases lookup pk "insured_info" with
  | none => rfl
  | some pv =>
    show (do
      let cur' ← pyUpdate ins pv
      Except.ok (setKey (stdRecord pol ins ben pay dec phy) "insured_info" (.obj cur'))) =
      Except.map (fun ins' => stdRecord pol ins' ben pay dec phy) (pyUpdate ins pv)
    cases pyUpdate ins pv <;> rfl

theorem mergeKey_std_3 (pol ins : Obj) (ben : List Json) (pay dec phy : Obj) (pk : Obj) :
    mergeKey (stdRecord pol ins ben pay dec phy) pk "benefits_to_claim" =
      (updArr ben (lookup pk "benefits_to_claim")).map
        (fun ben' => stdRecord pol ins ben' pay dec phy) := by
  unfold mergeKey updArr
  cases lookup pk "benefits_to_claim" with
  | none => rfl
  | some pv =>
    show (do
      let items ← pyIter pv
      Except.ok (setKey (stdRecord pol ins ben pay dec phy) "benefits_to_claim"
        (.arr (ben ++ items.filter (fun it => !(beqMem ben it)))))) =
      Except.map (fun ben' => stdRecord pol ins ben' pay dec phy)
        (do
          let items ← pyIter pv
          Except.ok (ben ++ items.filter (fun it => !(beqMem ben it))))
    cases pyIter pv <;> rfl

theorem mergeKey_std_4 (pol ins : Obj) (ben : List Json) (pay dec phy : Obj) (pk : Obj) :
    mergeKey (stdRecord pol ins ben pay dec phy) pk "payment_instructions" =
      (updObj pay (lookup pk "payment_instructions")).map
        (fun pay' => stdRecord pol ins ben pay' dec phy) := by
  unfold mergeKey updObj
  cases lookup pk "payment_instructions" with
  | none => rfl
  | some pv =>
    show (do
      let cur' ← pyUpdate pay pv
      Except.ok (setKey (stdRecord pol ins ben pay dec phy) "payment_instructions" (.obj cur'))) =
      Except.map (fun pay' => stdRecord pol ins ben pay' dec phy) (pyUpdate pay pv)
    cases pyUpdate pay pv <;> rfl

theorem mergeKey_std_5 (pol ins : Obj) (ben : List Json) (pay dec phy : Obj) (pk : Obj) :
    mergeKey (stdRecord pol ins ben pay dec phy) pk "declaration" =
      (updObj dec (lookup pk "declaration")).map
        (fun dec' => stdRecord pol ins ben pay dec' phy) := by
  unfold mergeKey updObj
  cases lookup pk "declaration" with
  | none => rfl
  | some pv =>
    show (do
      let cur' ← pyUpdate dec pv
      Except.ok (setKey (stdRecord pol ins ben pay dec phy) "declaration" (.obj cur'))) =
      Except.map (fun dec' => stdRecord pol ins ben pay dec' phy) (pyUpdate dec pv)
    cases pyUpdate dec pv <;> rfl

theorem mergeKey_std_6 (pol ins : Obj) (ben : List Json) (pay dec phy : Obj) (pk : Obj) :
    mergeKey (stdRecord pol ins ben pay dec phy) pk "physician_report" =
      (updObj phy (lookup pk "physician_report")).map
        (fun phy' => stdRecord pol ins ben pay dec phy') := by
  unfold mergeKey updObj
  cases lookup pk "physician_report" with
  | none => rfl
  | some pv =>
    show (do
      let cur' ← pyUpdate phy pv
      Except.ok (setKey (stdRecord pol ins ben pay dec phy) "physician_report" (.obj cur'))) =
      Except.map (fun phy' => stdRecord pol ins ben pay dec phy') (pyUpdate phy pv)
    cases pyUpdate phy pv <;> rfl

/-- Folding one dict-shaped page into a canonical record acts on the six
sections independently, in key order, with short-circuit on the first
raised exception. -/
theorem mergePage_std (pol ins : Obj) (ben : List Json) (pay dec phy : Obj) (pk : Obj) :
    mergePage (stdRecord pol ins ben pay dec phy) (.obj pk) = (do
      let pol' ← updObj pol (lookup pk "policy_details")
      let ins' ← updObj ins (lookup pk "insured_info")
      let ben' ← updArr ben (lookup pk "benefits_to_claim")
      let pay' ← updObj pay (lookup pk "payment_instructions")
      let dec' ← updObj dec (lookup pk "declaration")
      let phy' ← updObj phy (lookup pk "physician_report")
      pure (stdRecord pol' ins' ben' pay' dec' phy')) := by
  show ((stdRecord pol ins ben pay dec phy).map Prod.fst).foldlM
      (fun acc k => mergeKey acc pk k) (stdRecord pol ins ben pay dec phy) = _
  show (sectionKeys).foldlM (fun acc k => mergeKey acc pk k)
      (stdRecord pol ins ben pay dec phy) = _
  simp only [sectionKeys, List.foldlM_cons, List.foldlM_nil]
  rw [mergeKey_std_1]
  cases h1 : updObj pol (lookup pk "policy_details") with
  | error e => rfl
  | ok pol' =>
    show (sectionKeys.tail).foldlM (fun acc k => mergeKey acc pk k)
        (stdRecord pol' ins ben pay dec phy) = _
    simp only [sectionKeys, List.tail, List.foldlM_cons, List.foldlM_nil]
    rw [mergeKey_std_2]
    cases h2 : updObj ins (lookup pk "insured_info") with
    | error e => rfl
    | ok ins' =>
      show (sectionKeys.tail.tail).foldlM (fun acc k => mergeKey acc pk k)
          (stdRecord pol' ins' ben pay dec phy) = _
      simp only [sectionKeys, List.tail, List.foldlM_cons, List.foldlM_nil]
      rw [mergeKey_std_3]
      cases h3 : updArr ben (lookup pk "benefits_to_claim") with
      | error e => rfl
      | ok ben' =>
        show (sectionKeys.tail.tail.tail).foldlM (fun acc k => mergeKey acc pk k)
            (stdRecord pol' ins' ben' pay dec phy) = _
        simp only [sectionKeys, List.tail, List.foldlM_cons, List.foldlM_nil]
        rw [mergeKey_std_4]
        cases h4 : updObj pay (lookup pk "payment_instructions") with
        | error e => rfl
        | ok pay' =>
          show (sectionKeys.tail.tail.tail.tail).foldlM (fun acc k => mergeKey acc pk k)
              (stdRecord pol' ins' ben' pay' dec phy) = _
          simp only [sectionKeys, List.tail, List.foldlM_cons, List.foldlM_nil]
          rw [mergeKey_std_5]
          cases h5 : updObj dec (lookup pk "declaration") with
          | error e => rfl
          | ok dec' =>
            show (sectionKeys.tail.tail.tail.tail.tail).foldlM (fun acc k => mergeKey acc pk k)
                (stdRecord pol' ins' ben' pay' dec' phy) = _
            simp only [sectionKeys, List.tail, List.foldlM_cons, List.foldlM_nil]
            rw [mergeKey_std_6]
            cases h6 : updObj phy (lookup pk "physician_report") with
            | error e => rfl
            | ok phy' => rfl

theorem ebind_ok {α β : Type} (a : α) (f : α → Except String β) :
    (Except.ok a >>= f) = f a := rfl

theorem ebind_error {α β : Type} (e : String) (f : α → Except String β) :
    ((Except.error e : Except String α) >>= f) = .error e := rfl

theorem emap_ok {α β : Type} (f : α → β) (a : α) :
    Except.map f (.ok a : Except String α) = .ok (f a) := rfl

theorem emap_error {α β : Type} (f : α → β) (e : String) :
    Except.map f (.error e : Except String α) = .error e := rfl

theorem epure_bind {α β : Type} (a : α) (f : α → Except String β) :
    ((pure a : Except String α) >>= f) = f a := rfl

/-- A page result that is not a dict is skipped entirely by the merge
loop. -/
theorem mergePage_nonObj {page : Json} (o : Obj) (h : page.isObj = false) :
    mergePage o page = .ok o := by
  cases page <;> first | rfl | simp [Json.isObj] at h

/-- Shape preservation: merging any list of page results into a
canonically-shaped record yields (on success) a canonically-shaped
record. -/
theorem foldlM_mergePage_shape :
    ∀ (rs : List Json) (pol ins : Obj) (ben : List Json) (pay dec phy : Obj) (m : Obj),
      rs.foldlM mergePage (stdRecord pol ins ben pay dec phy) = .ok m →
      ∃ pol' ins' ben' pay' dec' phy', m = stdRecord pol' ins' ben' pay' dec' phy'
  | [], pol, ins, ben, pay, dec, phy, m, h => by
    simp only [List.foldlM_nil] at h
    cases h
    exact ⟨pol, ins, ben, pay, dec, phy, rfl⟩
  | r :: rs, pol, ins, ben, pay, dec, phy, m, h => by
    rw [List.foldlM_cons] at h
    cases hobj : r.isObj with
    | false =>
      rw [mergePage_nonObj _ hobj, ebind_ok] at h
      exact foldlM_mergePage_shape rs pol ins ben pay dec phy m h
    | true =>
      obtain ⟨pk, rfl⟩ : ∃ pk, r = .obj pk := by
        cases r <;> simp [Json.isObj] at hobj ⊢
      rw [mergePage_std] at h
      cases h1 : updObj pol (lookup pk "policy_details") with
      | error e => rw [h1, ebind_error, ebind_error] at h; exact absurd h (by simp)
      | ok pol' =>
      rw [h1, ebind_ok] at h
      cases h2 : updObj ins (lookup pk "insured_info") with
      | error e => rw [h2, ebind_error, ebind_error] at h; exact absurd h (by simp)
      | ok ins' =>
      rw [h2, ebind_ok] at h
      cases h3 : updArr ben (lookup pk "benefits_to_claim") with
      | error e => rw [h3, ebind_error, ebind_error] at h; exact absurd h (by simp)
      | ok ben' =>
      rw [h3, ebind_ok] at h
      cases h4 : updObj pay (lookup pk "payment_instructions") with
      | error e => rw [h4, ebind_error, ebind_error] at h; exact absurd h (by simp)
      | ok pay' =>
      rw [h4, ebind_ok] at h
      cases h5 : updObj dec (lookup pk "declaration") with
      | error e => rw [h5, ebind_error, ebind_error] at h; exact absurd h (by simp)
      | ok dec' =>
      rw [h5, ebind_ok] at h
      cases h6 : updObj phy (lookup pk "physician_report") with
      | error e => rw [h6, ebind_error, ebind_error] at h; exact absurd h (by simp)
      | ok phy' =>
      rw [h6, ebind_ok, epure_bind] at h
      exact foldlM_mergePage_shape rs pol' ins' ben' pay' dec' phy' m h

/-- The merge fold ignores page results that are not dicts. -/
theorem foldlM_mergePage_filter :
    ∀ (rs : List Json) (o : Obj),
      rs.foldlM mergePage o = (rs.filter Json.isObj).foldlM mergePage o
  | [], o => rfl
  | r :: rs, o => by
    rw [List.foldlM_cons]
    cases hobj : r.isObj with
    | false =>
      rw [mergePage_nonObj o hobj, ebind_ok, List.filter_cons_of_neg (by simp [hobj])]
      exact foldlM_mergePage_filter rs o
    | true =>
      rw [List.filter_cons_of_pos (by simp [hobj]), List.foldlM_cons]
      cases hm : mergePage o r with
      | error e => rw [ebind_error, ebind_error]
      | ok o' =>
        rw [ebind_ok, ebind_ok]
        exact foldlM_mergePage_filter rs o'

/-! ## Claim theorems -/

/-- C3: for every integer `n` outside `{1, 2, 3, 4}`, `get_page_prompt n`
returns the prompt definition registered for page 4 (same title, prompt
text and JSON structure — the highest-numbered known page), and the
lookup is total: it succeeds for every integer input. -/
theorem C3_prompt_fallback (n : Int) (h1 : n ≠ 1) (h2 : n ≠ 2) (h3 : n ≠ 3)
    (h4 : n ≠ 4) :
    (get_page_prompt n).title = (get_page_prompt 4).title ∧
    (get_page_prompt n).prompt = (get_page_prompt 4).prompt ∧
    (get_page_prompt n).json_structure = (get_page_prompt 4).json_structure := by
  simp [get_page_prompt, promptsLookup, h1, h2, h3, h4]

/-- Witness for C3 at the concrete out-of-range page number 7. -/
theorem C3_prompt_fallback_witness :
    (get_page_prompt 7).title = (get_page_prompt 4).title ∧
    (get_page_prompt 7).prompt = (get_page_prompt 4).prompt ∧
    (get_page_prompt 7).json_structure = (get_page_prompt 4).json_structure :=
  C3_prompt_fallback 7 (by decide) (by decide) (by decide) (by decide)

/-- C7: every page result that is not a mapping is skipped entirely by
`merge_results`: the merge of any list of page results equals the merge
of its mapping elements in order (so a non-mapping contributes nothing
and raises nothing). -/
theorem C7_non_mapping_skipped (rs : List Json) :
    mergeResults rs = mergeResults (rs.filter Json.isObj) := by
  unfold mergeResults mergeResultsObj
  rw [foldlM_mergePage_filter]

/-- C10: `merge_results` is partial on mapping-only inputs: a page
result mapping the object section `policy_details` to the scalar `5`
makes the dict overlay raise `TypeError`; a page result mapping the list
section `benefits_to_claim` to the string `"abc"` is folded in
character-by-character (three one-character items, not one item); while
a non-mapping page result is skipped without error. -/
theorem C10_merge_results_partial :
    mergeResults [.obj [("policy_details", .num 5)]] =
      .error "TypeError: object is not iterable" ∧
    mergeResults [.obj [("benefits_to_claim", .str "abc")]] =
      .ok (.obj (stdRecord [] [] [.str "a", .str "b", .str "c"] [] [] [])) ∧
    mergeResults [.num 5] = .ok (.obj emptyMerged) :=
  ⟨rfl, rfl, rfl⟩

theorem daysInMonth_le_31 (m y : Nat) : daysInMonth m y ≤ 31 := by
  unfold daysInMonth
  split
  · split <;> omega
  · split <;> omega

/-- The date shape the spec's words describe: day/month/year numeric
with slashes, *zero-padded* (two-digit day and month), four-digit year,
real calendar validity.  Stated from the spec, for comparison with the
source's `validate_date`. -/
def specZeroPaddedDate (s : String) : Bool :=
  match splitOnChar '/' s.data with
  | [d, m, y] =>
    isDigits d && d.length = 2 && isDigits m && m.length = 2 &&
    isDigits y && y.length = 4 && 1 ≤ digitsToNat d && 1 ≤ digitsToNat m &&
    digitsToNat m ≤ 12 && 1 ≤ digitsToNat y &&
    digitsToNat d ≤ daysInMonth (digitsToNat m) (digitsToNat y)
  | _ => false

/-- C9, counterexample: `validate_date` accepts `"5/2/2024"`, which is
not zero-padded, so it does not accept *exactly* the zero-padded
day/month/year dates the claim describes. -/
theorem C9_counterexample :
    validate_date "5/2/2024" = true ∧ specZeroPaddedDate "5/2/2024" = false := by
  exact ⟨by decide, by decide⟩

/-- C9, amended: `validate_date` accepts day/month/year numeric dates
with slashes where day and month have one or two digits (zero-padding
optional, per the lenient `strptime` field patterns), the year exactly
four digits, with real calendar validity: "29/02/2024" (leap day) true,
"31/02/2024" false, "2024-02-29" false, "5/2/2024" true, "29/02/24"
false, "05/02/2024" true; every zero-padded calendar-valid date is
accepted, and every accepted string has exactly three slash-separated
components. -/
theorem C9_amended :
    validate_date "29/02/2024" = true ∧ validate_date "31/02/2024" = false ∧
    validate_date "2024-02-29" = false ∧ validate_date "5/2/2024" = true ∧
    validate_date "29/02/24" = false ∧ validate_date "05/02/2024" = true ∧
    (∀ s, specZeroPaddedDate s = true → validate_date s = true) ∧
    (∀ s, validate_date s = true → (splitOnChar '/' s.data).length = 3) := by
  refine ⟨by decide, by decide, by decide, by decide, by decide, by decide, ?_, ?_⟩
  · intro s h
    unfold specZeroPaddedDate at h
    unfold validate_date
    rcases hsp : splitOnChar '/' s.data with _ | ⟨d, _ | ⟨m, _ | ⟨y, _ | _⟩⟩⟩ <;>
      rw [hsp] at h <;> simp only [] at h ⊢
    case cons.cons.cons.nil =>
      simp only [Bool.and_eq_true, decide_eq_true_eq] at h
      obtain ⟨⟨⟨⟨⟨⟨⟨⟨⟨⟨hd, hd2⟩, hm⟩, hm2⟩, hy⟩, hy4⟩, hd1⟩, hm1⟩, hm12⟩, hy1⟩, hdm⟩ := h
      have hb := daysInMonth_le_31 (digitsToNat m) (digitsToNat y)
      have g1 : dayField d = true := by
        simp only [dayField, Bool.and_eq_true, decide_eq_true_eq]
        exact ⟨⟨⟨hd, by omega⟩, hd1⟩, by omega⟩
      have g2 : monthField m = true := by
        simp only [monthField, Bool.and_eq_true, decide_eq_true_eq]
        exact ⟨⟨⟨hm, by omega⟩, hm1⟩, hm12⟩
      have g3 : yearField y = true := by
        simp only [yearField, Bool.and_eq_true, decide_eq_true_eq]
        exact ⟨hy, hy4⟩
      simp [g1, g2, g3, hy1, hdm]
    all_goals simp at h
  · intro s h
    unfold validate_date at h
    rcases hsp : splitOnChar '/' s.data with _ | ⟨d, _ | ⟨m, _ | ⟨y, _ | _⟩⟩⟩ <;>
      rw [hsp] at h <;> simp only [] at h <;> simp_all

/-- Witness for C9's amended theorem: discharging the zero-padded
implication at a concrete date. -/
theorem C9_amended_witness : validate_date "28/02/1900" = true :=
  C9_amended.2.2.2.2.2.2.1 "28/02/1900" (by decide)

theorem extractPagesFrom_length {α : Type} (gen : String → α → Except String String)
    (parse : String → Option Json) :
    ∀ (l : List α) (n : Int), (extractPagesFrom gen parse l n).length = l.length
  | [], _ => rfl
  | _ :: rest, n => by
    simp [extractPagesFrom, extractPagesFrom_length gen parse rest (n + 1)]

theorem extractPagesFrom_get {α : Type} (gen : String → α → Except String String)
    (parse : String → Option Json) :
    ∀ (l : List α) (n : Int) (i : Nat) (hi : i < l.length)
      (hi' : i < (extractPagesFrom gen parse l n).length),
      (extractPagesFrom gen parse l n).get ⟨i, hi'⟩ =
        extractPage gen parse (l.get ⟨i, hi⟩) (n + i)
  | [], _, i, hi, _ => by simp at hi
  | x :: rest, n, 0, _, _ => by simp [extractPagesFrom]
  | x :: rest, n, i + 1, hi, hi' => by
    have := extractPagesFrom_get gen parse rest (n + 1) i
      (by simpa using Nat.lt_of_succ_lt_succ hi)
      (by
        have hl := extractPagesFrom_length gen parse rest (n + 1)
        simp only [extractPagesFrom, List.length_cons] at hi'
        omega)
    simp only [extractPagesFrom, List.get_cons_succ]
    rw [this]
    congr 1
    push_cast
    ring

/-- C2 (spec-modelled: `GeminiExtractor` is absent from the source
tree): `extract_page` never raises past the page boundary — on model
invocation failure it returns the error record
`{"error": "Extraction failed for page n: message", "page": n}`; when
the reply survives invocation but its fence-stripped text fails strict
JSON parsing, it returns `{"raw_response": original_text, "note":
"Failed to parse as JSON"}` carrying the original reply text exactly;
otherwise it returns the parsed mapping.  `extract_multipage` processes
each page independently: its i-th result is exactly `extract_page` of
the i-th image with page number `i + 1`, so a failure on one page never
aborts the others. -/
theorem C2_extract_page_error_handling {α : Type}
    (gen : String → α → Except String String) (parse : String → Option Json)
    (img : α) (n : Int) (maxPages : Nat) (images : List α) :
    (∀ msg, gen (get_page_prompt n).prompt img = .error msg →
      extractPage gen parse img n =
        .obj [("error", .str ("Extraction failed for page " ++ toString n ++
                 ": " ++ msg)),
              ("page", .num n)]) ∧
    (∀ text, gen (get_page_prompt n).prompt img = .ok text →
      parse ((stripFences text).trim) = none →
      extractPage gen parse img n =
        .obj [("raw_response", .str text),
              ("note", .str "Failed to parse as JSON")]) ∧
    (∀ text j, gen (get_page_prompt n).prompt img = .ok text →
      parse ((stripFences text).trim) = some j →
      extractPage gen parse img n = j) ∧
    ((extractMultipage gen parse maxPages images).length =
        min images.length maxPages ∧
      ∀ (i : Nat) (hi : i < images.length)
        (hi' : i < (extractMultipage gen parse maxPages images).length),
        (extractMultipage gen parse maxPages images).get ⟨i, hi'⟩ =
          extractPage gen parse (images.get ⟨i, hi⟩) (i + 1)) := by
  refine ⟨?_, ?_, ?_, ?_, ?_⟩
  · intro msg h
    simp [extractPage, h]
  · intro text hg hp
    simp [extractPage, hg, hp]
  · intro text j hg hp
    simp [extractPage, hg, hp]
  · rw [extractMultipage, extractPagesFrom_length]
    simp [Nat.min_comm]
  · intro i hi hi'
    simp only [extractMultipage] at hi' ⊢
    have hlen : i < (images.take maxPages).length := by
      rw [← extractPagesFrom_length gen parse (images.take maxPages) 1]
      exact hi'
    rw [extractPagesFrom_get gen parse (images.take maxPages) 1 i hlen hi']
    congr 1
    · simp [List.get_eq_getElem]
    · omega

/-- Witness for C2: a model that fails on one page and replies
unparsable text on another still yields one record per page, with the
documented shapes. -/
theorem C2_extract_page_error_handling_witness :
    extractPage (fun _ (_ : Nat) => .error "quota") (fun _ => none) 0 2 =
      .obj [("error", .str "Extraction failed for page 2: quota"),
            ("page", .num 2)] ∧
    extractPage (fun _ (_ : Nat) => .ok "not json at all") (fun _ => none) 0 1 =
      .obj [("raw_response", .str "not json at all"),
            ("note", .str "Failed to parse as JSON")] ∧
    extractPage (fun _ (_ : Nat) => .ok "x") (fun _ => some (.obj [])) 0 1 =
      .obj [] := by
  refine ⟨?_, ?_, ?_⟩
  · exact (C2_extract_page_error_handling _ _ 0 2 4 []).1 "quota" rfl
  · exact (C2_extract_page_error_handling _ _ 0 1 4 []).2.1 "not json at all" rfl rfl
  · exact (C2_extract_page_error_handling _ _ 0 1 4 []).2.2.1 "x" (.obj []) rfl rfl

theorem ebind_pure {α : Type} (x : Except String α) : (x >>= pure) = x := by
  cases x <;> rfl

theorem mergeResultsObj_singleton (r : Json) :
    mergeResultsObj [r] = mergePage emptyMerged r := by
  rw [mergeResultsObj, List.foldlM_cons]
  simp only [List.foldlM_nil]
  exact ebind_pure _

theorem mergeResultsObj_pair (r r' : Json) :
    mergeResultsObj [r, r'] =
      mergePage emptyMerged r >>= fun o => mergePage o r' := by
  rw [mergeResultsObj, List.foldlM_cons]
  simp only [List.foldlM_cons, List.foldlM_nil]
  cases mergePage emptyMerged r with
  | error e => rfl
  | ok o =>
    rw [ebind_ok, ebind_ok]
    exact ebind_pure _

/-- Re-applying a page's object-section contribution to the section it
produced from empty is a no-op. -/
theorem updObj_idem {o : Option Json} {c : Obj} (h : updObj [] o = .ok c) :
    updObj c o = .ok c := by
  cases o with
  | none => cases h; rfl
  | some pv =>
    replace h : pyUpdate [] pv = .ok c := h
    show pyUpdate c pv = .ok c
    unfold pyUpdate at h ⊢
    cases he : entriesOf pv with
    | error e => rw [he] at h; exact absurd h (by simp [ebind_error])
    | ok e =>
      rw [he, ebind_ok] at h
      rw [ebind_ok]
      cases h
      have hdu : dictUpdate (dictUpdate [] e) e = dictUpdate [] e :=
        dictUpdate_twice e List.nodup_nil
      rw [hdu]
      rfl

/-- Re-applying a page's list-section contribution to the list it
produced from empty is a no-op. -/
theorem updArr_idem {o : Option Json} {c : List Json} (h : updArr [] o = .ok c) :
    updArr c o = .ok c := by
  cases o with
  | none => cases h; rfl
  | some pv =>
    replace h : (do
      let items ← pyIter pv
      Except.ok (([] : List Json) ++
        items.filter (fun it => !(beqMem [] it)))) = .ok c := h
    show (do
      let items ← pyIter pv
      Except.ok (c ++ items.filter (fun it => !(beqMem c it)))) = .ok c
    cases hi : pyIter pv with
    | error e => rw [hi] at h; exact absurd h (by simp [ebind_error])
    | ok items =>
      rw [hi, ebind_ok] at h
      rw [ebind_ok]
      injection h with h'
      have hc : items = c := by simpa [beqMem] using h'
      subst hc
      have hfil : items.filter (fun it => !(beqMem items it)) = [] := by
        apply List.filter_eq_nil_iff.mpr
        intro a ha
        simp [beqMem_of_mem ha]
      rw [hfil, List.append_nil]

/-- Merging a page result a second time into the record it produced
from the empty record is a no-op. -/
theorem mergePage_self_fix {r : Json} {m0 : Obj}
    (h : mergePage emptyMerged r = .ok m0) : mergePage m0 r = .ok m0 := by
  cases hobj : r.isObj with
  | false =>
    rw [mergePage_nonObj _ hobj] at h
    cases h
    exact mergePage_nonObj _ hobj
  | true =>
    obtain ⟨pk, rfl⟩ : ∃ pk, r = .obj pk := by
      cases r <;> simp [Json.isObj] at hobj ⊢
    rw [emptyMerged_std, mergePage_std] at h
    cases h1 : updObj [] (lookup pk "policy_details") with
    | error e => rw [h1, ebind_error] at h; exact absurd h (by simp)
    | ok pol' =>
    rw [h1, ebind_ok] at h
    cases h2 : updObj [] (lookup pk "insured_info") with
    | error e => rw [h2, ebind_error] at h; exact absurd h (by simp)
    | ok ins' =>
    rw [h2, ebind_ok] at h
    cases h3 : updArr [] (lookup pk "benefits_to_claim") with
    | error e => rw [h3, ebind_error] at h; exact absurd h (by simp)
    | ok ben' =>
    rw [h3, ebind_ok] at h
    cases h4 : updObj [] (lookup pk "payment_instructions") with
    | error e => rw [h4, ebind_error] at h; exact absurd h (by simp)
    | ok pay' =>
    rw [h4, ebind_ok] at h
    cases h5 : updObj [] (lookup pk "declaration") with
    | error e => rw [h5, ebind_error] at h; exact absurd h (by simp)
    | ok dec' =>
    rw [h5, ebind_ok] at h
    cases h6 : updObj [] (lookup pk "physician_report") with
    | error e => rw [h6, ebind_error] at h; exact absurd h (by simp)
    | ok phy' =>
    rw [h6, ebind_ok] at h
    cases h
    rw [mergePage_std, updObj_idem h1, ebind_ok, updObj_idem h2, ebind_ok,
      updArr_idem h3, ebind_ok, updObj_idem h4, ebind_ok, updObj_idem h5,
      ebind_ok, updObj_idem h6, ebind_ok]
    rfl

/-- Merging the same single-page result twice equals merging it once. -/
theorem merge_single_twice {r : Json} {m : Json}
    (h : mergeResults [r] = .ok m) : mergeResults [r, r] = .ok m := by
  unfold mergeResults at h ⊢
  rw [mergeResultsObj_singleton] at h
  rw [mergeResultsObj_pair]
  cases hmp : mergePage emptyMerged r with
  | error e => rw [hmp] at h; exact absurd h (by simp [emap_error])
  | ok m0 =>
    rw [hmp, emap_ok] at h
    rw [ebind_ok, mergePage_self_fix hmp, emap_ok]
    exact h

/-- The section value of a merge outcome (`none` when the merge raised
or the section is absent). -/
def getSection (res : Except String Json) (k : String) : Option Json :=
  match res with
  | .ok (.obj m) => lookup m k
  | _ => none

/-- C5: merging the same single-page result twice is equivalent to
merging it once for every object-typed section (idempotence), and when
two pages supply the same key of an object section the later page wins:
`insured_info.name = "Alice"` then `"Bob"` merges to `"Bob"`. -/
theorem C5_merge_idempotent_and_lww :
    (∀ (r : Json) (m : Json), mergeResults [r] = .ok m →
      ∀ k, k ∈ ["policy_details", "insured_info", "payment_instructions",
                "declaration", "physician_report"] →
        getSection (mergeResults [r, r]) k = getSection (mergeResults [r]) k) ∧
    (mergeResults [.obj [("insured_info", .obj [("name", .str "Alice")])],
                   .obj [("insured_info", .obj [("name", .str "Bob")])]] =
       .ok (.obj (stdRecord [] [("name", .str "Bob")] [] [] [] [])) ∧
     getAtPath (stdRecord [] [("name", .str "Bob")] [] [] [] [])
       ["insured_info", "name"] = some (.str "Bob")) := by
  refine ⟨?_, rfl, rfl⟩
  intro r m h k _
  rw [merge_single_twice h, h]

/-- Witness for C5: idempotence applied at a concrete one-page result. -/
theorem C5_merge_idempotent_and_lww_witness :
    getSection (mergeResults
        [.obj [("policy_details", .obj [("policy_no", .str "P1")])],
         .obj [("policy_details", .obj [("policy_no", .str "P1")])]])
      "policy_details" =
    getSection (mergeResults
        [.obj [("policy_details", .obj [("policy_no", .str "P1")])]])
      "policy_details" :=
  C5_merge_idempotent_and_lww.1
    (.obj [("policy_details", .obj [("policy_no", .str "P1")])])
    (.obj (stdRecord [("policy_no", .str "P1")] [] [] [] [] [])) rfl
    "policy_details" (List.mem_cons_self _ _)

/-- The `benefits_to_claim` list a page result contributes (empty when
the page is not a dict or has no list there). -/
def benefitsList (r : Json) : List Json :=
  match r with
  | .obj kvs =>
    match lookup kvs "benefits_to_claim" with
    | some (.arr l) => l
    | _ => []
  | _ => []

/-- The page result's `benefits_to_claim` value, when present, is an
actual list (the shape the claim speaks about). -/
def BenefitsOk (r : Json) : Prop :=
  match r with
  | .obj kvs =>
    match lookup kvs "benefits_to_claim" with
    | none => True
    | some (.arr _) => True
    | some _ => False
  | _ => True

/-- `merged_list.extend([item for item in page_list if item not in
merged_list])`: append the page items not already present. -/
def dedupExtend (acc l : List Json) : List Json :=
  acc ++ l.filter (fun it => !(beqMem acc it))

theorem dedupExtend_nil (acc : List Json) : dedupExtend acc [] = acc := by
  simp [dedupExtend]

/-- Across the whole merge fold, the list section accumulates exactly by
`dedupExtend` over the pages' benefit lists, in page order. -/
theorem foldlM_benefits :
    ∀ (rs : List Json) (pol ins : Obj) (ben : List Json) (pay dec phy : Obj)
      (m : Obj), (∀ r ∈ rs, BenefitsOk r) →
      rs.foldlM mergePage (stdRecord pol ins ben pay dec phy) = .ok m →
      lookup m "benefits_to_claim" =
        some (.arr (rs.foldl (fun acc r => dedupExtend acc (benefitsList r)) ben))
  | [], pol, ins, ben, pay, dec, phy, m, _, h => by
    simp only [List.foldlM_nil] at h
    cases h
    rfl
  | r :: rs, pol, ins, ben, pay, dec, phy, m, hok, h => by
    rw [List.foldlM_cons] at h
    rw [List.foldl_cons]
    have hokr : BenefitsOk r := hok r (List.mem_cons_self r rs)
    have hoktl : ∀ r' ∈ rs, BenefitsOk r' :=
      fun r' hr' => hok r' (List.mem_cons_of_mem r hr')
    cases hobj : r.isObj with
    | false =>
      rw [mergePage_nonObj _ hobj, ebind_ok] at h
      have hbl : benefitsList r = [] := by
        cases r <;> first | rfl | simp [Json.isObj] at hobj
      rw [hbl, dedupExtend_nil]
      exact foldlM_benefits rs pol ins ben pay dec phy m hoktl h
    | true =>
      obtain ⟨pk, rfl⟩ : ∃ pk, r = .obj pk := by
        cases r <;> simp [Json.isObj] at hobj ⊢
      rw [mergePage_std] at h
      cases h1 : updObj pol (lookup pk "policy_details") with
      | error e => rw [h1, ebind_error, ebind_error] at h; exact absurd h (by simp)
      | ok pol' =>
      rw [h1, ebind_ok] at h
      cases h2 : updObj ins (lookup pk "insured_info") with
      | error e => rw [h2, ebind_error, ebind_error] at h; exact absurd h (by simp)
      | ok ins' =>
      rw [h2, ebind_ok] at h
      cases h3 : updArr ben (lookup pk "benefits_to_claim") with
      | error e => rw [h3, ebind_error, ebind_error] at h; exact absurd h (by simp)
      | ok ben' =>
      rw [h3, ebind_ok] at h
      cases h4 : updObj pay (lookup pk "payment_instructions") with
      | error e => rw [h4, ebind_error, ebind_error] at h; exact absurd h (by simp)
      | ok pay' =>
      rw [h4, ebind_ok] at h
      cases h5 : updObj dec (lookup pk "declaration") with
      | error e => rw [h5, ebind_error, ebind_error] at h; exact absurd h (by simp)
      | ok dec' =>
      rw [h5, ebind_ok] at h
      cases h6 : updObj phy (lookup pk "physician_report") with
      | error e => rw [h6, ebind_error, ebind_error] at h; exact absurd h (by simp)
      | ok phy' =>
      rw [h6, ebind_ok, epure_bind] at h
      have hben : ben' = dedupExtend ben (benefitsList (.obj pk)) := by
        cases hb : lookup pk "benefits_to_claim" with
        | none =>
          rw [hb] at h3
          cases h3
          simp [benefitsList, hb, dedupExtend_nil]
        | some pv =>
          cases pv with
          | arr l =>
            rw [hb] at h3
            replace h3 : (do
              let items ← pyIter (.arr l)
              Except.ok (ben ++ items.filter (fun it => !(beqMem ben it)))) =
                .ok ben' := h3
            rw [show pyIter (.arr l) = .ok l from rfl, ebind_ok] at h3
            injection h3 with h3'
            simp [benefitsList, hb, dedupExtend, h3'.symm]
          | null => simp [BenefitsOk, hb] at hokr
          | bool b => simp [BenefitsOk, hb] at hokr
          | num n => simp [BenefitsOk, hb] at hokr
          | str sv => simp [BenefitsOk, hb] at hokr
          | obj kv => simp [BenefitsOk, hb] at hokr
      rw [← hben]
      exact foldlM_benefits rs pol' ins' ben' pay' dec' phy' m hoktl h

/-- C4: for the list-typed section, `merge_results` extends the
accumulated list with exactly those items of each page's list that are
not already present, by value equality, preserving first-seen order —
so pages contributing `["X","Y"]` and then `["Y","Z"]` merge to exactly
`["X","Y","Z"]`. -/
theorem C4_merge_list_dedup :
    (∀ (rs : List Json) (m : Obj), (∀ r ∈ rs, BenefitsOk r) →
      mergeResults rs = .ok (.obj m) →
      lookup m "benefits_to_claim" =
        some (.arr (rs.foldl (fun acc r => dedupExtend acc (benefitsList r)) []))) ∧
    mergeResults [.obj [("benefits_to_claim", .arr [.str "X", .str "Y"])],
                  .obj [("benefits_to_claim", .arr [.str "Y", .str "Z"])]] =
      .ok (.obj (stdRecord [] [] [.str "X", .str "Y", .str "Z"] [] [] [])) := by
  refine ⟨?_, rfl⟩
  intro rs m hok h
  unfold mergeResults at h
  cases hmo : mergeResultsObj rs with
  | error e => rw [hmo] at h; exact absurd h (by simp [emap_error])
  | ok m0 =>
    rw [hmo, emap_ok] at h
    injection h with h'
    have hm0 : m0 = m := by
      cases h'
      rfl
    subst hm0
    rw [mergeResultsObj, emptyMerged_std] at hmo
    exact foldlM_benefits rs [] [] [] [] [] [] m0 hok hmo

/-- Witness for C4: the dedup fold applied at two concrete pages with an
overlapping item. -/
theorem C4_merge_list_dedup_witness :
    lookup (stdRecord [] [] [.str "A", .str "B"] [] [] []) "benefits_to_claim" =
      some (.arr [.str "A", .str "B"]) :=
  C4_merge_list_dedup.1
    [.obj [("benefits_to_claim", .arr [.str "A"])],
     .obj [("benefits_to_claim", .arr [.str "A", .str "B"])]]
    (stdRecord [] [] [.str "A", .str "B"] [] [] [])
    (by intro r hr; fin_cases hr <;> trivial)
    rfl

/-- Top-level lookup into a page result (dict pages only). -/
def pageLookup (r : Json) (k : String) : Option Json :=
  match r with
  | .obj kvs => lookup kvs k
  | _ => none

/-- Two page results the merger cannot distinguish: same dict-ness and
the same values at the six section keys (anything else is invisible to
`merge_results`). -/
def PageEquiv (r₁ r₂ : Json) : Prop :=
  r₁.isObj = r₂.isObj ∧ ∀ k ∈ sectionKeys, pageLookup r₁ k = pageLookup r₂ k

theorem mergePage_congr (pol ins : Obj) (ben : List Json) (pay dec phy : Obj)
    {r₁ r₂ : Json} (he : PageEquiv r₁ r₂) :
    mergePage (stdRecord pol ins ben pay dec phy) r₁ =
      mergePage (stdRecord pol ins ben pay dec phy) r₂ := by
  obtain ⟨hobj, hks⟩ := he
  cases h1 : r₁.isObj with
  | false =>
    rw [mergePage_nonObj _ h1, mergePage_nonObj _ (by rw [← hobj, h1])]
  | true =>
    obtain ⟨pk₁, rfl⟩ : ∃ pk, r₁ = .obj pk := by
      cases r₁ <;> simp [Json.isObj] at h1 ⊢
    obtain ⟨pk₂, rfl⟩ : ∃ pk, r₂ = .obj pk := by
      rw [h1] at hobj
      cases r₂ <;> simp [Json.isObj] at hobj ⊢
    rw [mergePage_std, mergePage_std]
    have e1 : lookup pk₁ "policy_details" = lookup pk₂ "policy_details" :=
      hks _ (by simp [sectionKeys])
    have e2 : lookup pk₁ "insured_info" = lookup pk₂ "insured_info" :=
      hks _ (by simp [sectionKeys])
    have e3 : lookup pk₁ "benefits_to_claim" = lookup pk₂ "benefits_to_claim" :=
      hks _ (by simp [sectionKeys])
    have e4 : lookup pk₁ "payment_instructions" = lookup pk₂ "payment_instructions" :=
      hks _ (by simp [sectionKeys])
    have e5 : lookup pk₁ "declaration" = lookup pk₂ "declaration" :=
      hks _ (by simp [sectionKeys])
    have e6 : lookup pk₁ "physician_report" = lookup pk₂ "physician_report" :=
      hks _ (by simp [sectionKeys])
    rw [e1, e2, e3, e4, e5, e6]

/-- One merged page preserves the canonical shape. -/
theorem mergePage_shape {o' : Obj} (pol ins : Obj) (ben : List Json)
    (pay dec phy : Obj) {r : Json}
    (h : mergePage (stdRecord pol ins ben pay dec phy) r = .ok o') :
    ∃ p i b pa d ph, o' = stdRecord p i b pa d ph := by
  apply foldlM_mergePage_shape [r] pol ins ben pay dec phy o'
  rw [List.foldlM_cons]
  simp only [List.foldlM_nil]
  rw [h, ebind_ok]
  rfl

theorem foldlM_mergePage_congr :
    ∀ {rs₁ rs₂ : List Json}, List.Forall₂ PageEquiv rs₁ rs₂ →
      ∀ (pol ins : Obj) (ben : List Json) (pay dec phy : Obj),
      rs₁.foldlM mergePage (stdRecord pol ins ben pay dec phy) =
        rs₂.foldlM mergePage (stdRecord pol ins ben pay dec phy)
  | [], [], _, _, _, _, _, _, _ => rfl
  | r₁ :: rs₁, r₂ :: rs₂, h, pol, ins, ben, pay, dec, phy => by
    obtain ⟨hr, hrs⟩ := List.forall₂_cons.mp h
    rw [List.foldlM_cons, List.foldlM_cons, mergePage_congr pol ins ben pay dec phy hr]
    cases hm : mergePage (stdRecord pol ins ben pay dec phy) r₂ with
    | error e => rw [ebind_error, ebind_error]
    | ok o' =>
      rw [ebind_ok, ebind_ok]
      obtain ⟨p, i, b, pa, d, ph, rfl⟩ := mergePage_shape pol ins ben pay dec phy hm
      exact foldlM_mergePage_congr hrs p i b pa d ph

/-- C6: the record returned by `merge_results` always has exactly the
six top-level section keys, in order, even when every value is empty;
and the merge result depends only on each page's dict-ness and its
values at those six keys, so any other key of a page result is silently
dropped (the schema is closed). -/
theorem C6_closed_schema :
    (∀ (rs : List Json) (m : Json), mergeResults rs = .ok m →
      ∃ entries, m = .obj entries ∧ entries.map Prod.fst = sectionKeys) ∧
    (∀ rs₁ rs₂ : List Json, List.Forall₂ PageEquiv rs₁ rs₂ →
      mergeResults rs₁ = mergeResults rs₂) := by
  constructor
  · intro rs m h
    unfold mergeResults at h
    cases hmo : mergeResultsObj rs with
    | error e => rw [hmo] at h; exact absurd h (by simp [emap_error])
    | ok m0 =>
      rw [hmo, emap_ok] at h
      injection h with h'
      rw [mergeResultsObj, emptyMerged_std] at hmo
      obtain ⟨p, i, b, pa, d, ph, rfl⟩ :=
        foldlM_mergePage_shape rs [] [] [] [] [] [] m0 hmo
      exact ⟨stdRecord p i b pa d ph, h'.symm, rfl⟩
  · intro rs₁ rs₂ h
    unfold mergeResults mergeResultsObj
    rw [emptyMerged_std, foldlM_mergePage_congr h]

/-- Witness for C6: a page carrying only an unknown key merges to the
six-key record with every section empty. -/
theorem C6_closed_schema_witness :
    ∃ entries, (Json.obj emptyMerged : Json) = .obj entries ∧
      entries.map Prod.fst = sectionKeys :=
  C6_closed_schema.1 [.obj [("foo", .num 1)]] (.obj emptyMerged) rfl

/-- Looking a key up after filtering on values: the entry survives
exactly when its value passes (distinct keys). -/
theorem lookup_filterVal {β : Type} (q : β → Bool) :
    ∀ (l : List (String × β)) (k : String), NodupKeys l →
      lookup (l.filter (fun kv => q kv.2)) k =
        (lookup l k).bind (fun v => if q v then some v else none)
  | [], k, _ => rfl
  | (k₀, v₀) :: tl, k, hnd => by
    have hndtl : NodupKeys tl := by
      unfold NodupKeys at *
      exact (List.nodup_cons.mp hnd).2
    have hknotin : k₀ ∉ tl.map Prod.fst := by
      unfold NodupKeys at hnd
      exact (List.nodup_cons.mp hnd).1
    by_cases hk : k₀ = k
    · subst hk
      cases hq : q v₀ with
      | true =>
        rw [List.filter_cons_of_pos (by simpa using hq)]
        simp [lookup, hq]
      | false =>
        rw [List.filter_cons_of_neg (by simpa using hq)]
        have : k₀ ∉ (tl.filter (fun kv => q kv.2)).map Prod.fst := by
          intro hmem
          exact hknotin (List.map_subset Prod.fst (List.filter_sublist tl).subset hmem)
        rw [lookup_eq_none _ _ this]
        simp [lookup, hq]
    · cases hq : q v₀ with
      | true =>
        rw [List.filter_cons_of_pos (by simpa using hq)]
        simp only [lookup, if_neg hk]
        exact lookup_filterVal q tl k hndtl
      | false =>
        rw [List.filter_cons_of_neg (by simpa using hq)]
        simp only [lookup, if_neg hk]
        exact lookup_filterVal q tl k hndtl

/-- The five-entry error table `validate_medical_form` builds before
dropping empty sections (named for proof convenience; `rawReport_eq`
ties it to the function). -/
def rawReport (pol ins pay dec phy : Obj) : List (String × List String) :=
  [("policy_details",
     if !pyTruthy (pyGetD pol "policy_no" .null)
     then ["Policy number missing"] else []),
   ("insured_info",
     (if !pyTruthy (pyGetD ins "name" .null)
      then ["Insured name missing"] else []) ++
     (if pyTruthy (pyGetD ins "date_of_birth" .null) &&
         !validateDateJson (pyGetD ins "date_of_birth" .null)
      then ["Invalid date of birth format"] else [])),
   ("payment_instructions",
     if !pyTruthy (pyGetD pay "payment_method" .null)
     then ["Payment method missing"] else []),
   ("declaration",
     (if !pyTruthy (pyGetD dec "signatory_name" .null)
      then ["Signatory name missing"] else []) ++
     (if pyTruthy (pyGetD dec "signature_date" .null) &&
         !validateDateJson (pyGetD dec "signature_date" .null)
      then ["Invalid signature date format"] else [])),
   ("physician_report",
     if !pyTruthy (pyGetD phy "final_diagnosis" .null)
     then ["Final diagnosis missing"] else [])]

theorem rawReport_eq (pol ins : Obj) (ben : List Json) (pay dec phy : Obj) :
    validate_medical_form (.obj (stdRecord pol ins ben pay dec phy)) =
      .ok ((rawReport pol ins pay dec phy).filter (fun kv => !kv.2.isEmpty)) :=
  rfl

theorem rawReport_nodup (pol ins pay dec phy : Obj) :
    NodupKeys (rawReport pol ins pay dec phy) := by
  unfold NodupKeys
  have h : (rawReport pol ins pay dec phy).map Prod.fst =
      ["policy_details", "insured_info", "payment_instructions",
       "declaration", "physician_report"] := rfl
  rw [h]
  decide

/-- C8: on a canonical merged record, `validate_medical_form` returns a
report that contains a section key iff that section produced at least
one error string — every present entry is nonempty, and presence of each
of the five validated sections is exactly the failure of its checks.  In
particular, when `policy_details.policy_no` is missing/falsy while
`declaration.signatory_name` is present and `signature_date` is valid or
absent, the report maps `policy_details` to `["Policy number missing"]`
and has no `declaration` key at all. -/
theorem C8_validation_presence (pol ins : Obj) (ben : List Json)
    (pay dec phy : Obj) :
    ∃ errs, validate_medical_form (.obj (stdRecord pol ins ben pay dec phy)) =
        .ok errs ∧
      (∀ k l, lookup errs k = some l → l ≠ []) ∧
      ((lookup errs "policy_details").isSome ↔
        pyTruthy (pyGetD pol "policy_no" .null) = false) ∧
      ((lookup errs "insured_info").isSome ↔
        (pyTruthy (pyGetD ins "name" .null) = false ∨
         (pyTruthy (pyGetD ins "date_of_birth" .null) &&
           !validateDateJson (pyGetD ins "date_of_birth" .null)) = true)) ∧
      ((lookup errs "payment_instructions").isSome ↔
        pyTruthy (pyGetD pay "payment_method" .null) = false) ∧
      ((lookup errs "declaration").isSome ↔
        (pyTruthy (pyGetD dec "signatory_name" .null) = false ∨
         (pyTruthy (pyGetD dec "signature_date" .null) &&
           !validateDateJson (pyGetD dec "signature_date" .null)) = true)) ∧
      ((lookup errs "physician_report").isSome ↔
        pyTruthy (pyGetD phy "final_diagnosis" .null) = false) ∧
      (pyTruthy (pyGetD pol "policy_no" .null) = false →
       pyTruthy (pyGetD dec "signatory_name" .null) = true →
       (pyTruthy (pyGetD dec "signature_date" .null) &&
         !validateDateJson (pyGetD dec "signature_date" .null)) = false →
       lookup errs "policy_details" = some ["Policy number missing"] ∧
       lookup errs "declaration" = none) := by
  have hnd := rawReport_nodup pol ins pay dec phy
  refine ⟨_, rawReport_eq pol ins ben pay dec phy, ?_, ?_, ?_, ?_, ?_, ?_, ?_⟩
  · intro k l hl
    rw [lookup_filterVal (fun v : List String => !v.isEmpty) _ _ hnd] at hl
    cases hlk : lookup (rawReport pol ins pay dec phy) k with
    | none => rw [hlk] at hl; cases hl
    | some v =>
      rw [hlk] at hl
      simp only [Option.some_bind] at hl
      cases hv : v.isEmpty with
      | true => rw [hv] at hl; cases hl
      | false =>
        rw [hv] at hl
        simp only [Bool.not_false, if_true, Option.some.injEq] at hl
        subst hl
        simpa using hv
  · rw [lookup_filterVal (fun v : List String => !v.isEmpty) _ _ hnd]
    cases hc : pyTruthy (pyGetD pol "policy_no" .null) <;>
      simp [rawReport, lookup, hc]
  · rw [lookup_filterVal (fun v : List String => !v.isEmpty) _ _ hnd]
    cases hc : pyTruthy (pyGetD ins "name" .null) <;>
      cases hd : pyTruthy (pyGetD ins "date_of_birth" .null) &&
        !validateDateJson (pyGetD ins "date_of_birth" .null) <;>
      simp [rawReport, lookup, hc, hd]
  · rw [lookup_filterVal (fun v : List String => !v.isEmpty) _ _ hnd]
    cases hc : pyTruthy (pyGetD pay "payment_method" .null) <;>
      simp [rawReport, lookup, hc]
  · rw [lookup_filterVal (fun v : List String => !v.isEmpty) _ _ hnd]
    cases hc : pyTruthy (pyGetD dec "signatory_name" .null) <;>
      cases hd : pyTruthy (pyGetD dec "signature_date" .null) &&
        !validateDateJson (pyGetD dec "signature_date" .null) <;>
      simp [rawReport, lookup, hc, hd]
  · rw [lookup_filterVal (fun v : List String => !v.isEmpty) _ _ hnd]
    cases hc : pyTruthy (pyGetD phy "final_diagnosis" .null) <;>
      simp [rawReport, lookup, hc]
  · intro h1 h5 h6
    constructor <;>
      · rw [lookup_filterVal (fun v : List String => !v.isEmpty) _ _ hnd]
        simp [rawReport, lookup, h1, h5, h6]

/-- Witness for C8's concrete scenario: a record missing the policy
number but carrying a valid declaration reports exactly the
`policy_details` error and no `declaration` entry. -/
theorem C8_validation_presence_witness :
    ∃ errs, validate_medical_form (.obj (stdRecord []
        [] [] [] [("signatory_name", .str "Jane Roe"),
                 ("signature_date", .str "01/03/2024")] [])) = .ok errs ∧
      lookup errs "policy_details" = some ["Policy number missing"] ∧
      lookup errs "declaration" = none := by
  obtain ⟨errs, heq, _, _, _, _, _, _, hconc⟩ :=
    C8_validation_presence [] [] [] []
      [("signatory_name", .str "Jane Roe"), ("signature_date", .str "01/03/2024")] []
  exact ⟨errs, heq, hconc (by decide) (by decide) (by decide)⟩

/-- When navigation is `live` (every intermediate key present with a
dict value), the written value is visible at the full dotted path. -/
theorem getAtPath_setPathLive :
    ∀ (d : Obj) (path : List String) (last : String) (v : Json),
      classify d path = .ok .live →
      getAtPath (setPathLive d path last v) (path ++ [last]) = some v
  | d, [], last, v, _ => by
    simp [setPathLive, getAtPath, lookup_setKey_self]
  | d, k :: rest, last, v, h => by
    simp only [classify] at h
    cases hk : lookup d k with
    | none => rw [hk] at h; simp at h
    | some w =>
      rw [hk] at h
      cases w with
      | obj inner =>
        replace h : classify inner rest = .ok .live := h
        have hstep : setPathLive d (k :: rest) last v =
            setKey d k (.obj (setPathLive inner rest last v)) := by
          simp only [setPathLive, hk]
        rw [hstep]
        cases hrl : rest ++ [last] with
        | nil => simp at hrl
        | cons a tl =>
          show getAtPath _ (k :: (rest ++ [last])) = some v
          rw [hrl]
          simp only [getAtPath, lookup_setKey_self]
          rw [← hrl]
          exact getAtPath_setPathLive inner rest last v h
      | null => cases rest <;> simp at h
      | bool b => cases rest <;> simp at h
      | num n => cases rest <;> simp at h
      | str s => cases rest <;> simp at h
      | arr xs => cases rest <;> simp at h

/-- C1, counterexample: with one page `{"baz": 7}` and priority map
`{"foo.baz": 1}` (page index in range), the merged record is returned
*without* the priority value: `merged.get("foo", {})` yields a fresh
dict that is never attached, so nothing exists at path `foo.baz` and no
intermediate object is created. -/
theorem C1_counterexample :
    mergeWithPriority [.obj [("baz", .num 7)]] [("foo.baz", 1)] =
      .ok (.obj emptyMerged) ∧
    getAtPath emptyMerged ["foo", "baz"] = none ∧
    lookup emptyMerged "foo" = none :=
  ⟨rfl, rfl, rfl⟩

/-- C1, amended: `merge_with_priority` performs the standard merge and
then, for an in-range priority entry whose dotted path's intermediate
keys are all present as objects in the merged record (`live`
navigation), overwrites the value at that nested path with the page's
*top-level* value at the final segment; when an intermediate key is
missing (`lost` navigation), the write lands in a discarded fresh dict,
so the merged record is returned unchanged and the priority value is
absent — missing intermediate keys are never created in the returned
record. -/
theorem C1_priority_merge (rs : List Json) (field : String) (p : Int)
    (m : Obj) (page : Json) (path : List String) (last : String)
    (hp : p ≤ (rs.length : Int))
    (hpage : pyIndex rs (p - 1) = .ok page)
    (hsplit : (splitOnChar '.' field.data).map (fun l => String.mk l) =
      path ++ [last])
    (hm : mergeResultsObj rs = .ok m) :
    (∀ v, classify m path = .ok .lost →
      pyContains page last = .ok true →
      pyGetItem page last = .ok v →
      mergeWithPriority rs [(field, p)] = .ok (.obj m)) ∧
    (∀ v, classify m path = .ok .live →
      pyContains page last = .ok true →
      pyGetItem page last = .ok v →
      mergeWithPriority rs [(field, p)] =
        .ok (.obj (setPathLive m path last v)) ∧
      getAtPath (setPathLive m path last v) (path ++ [last]) = some v) := by
  have hbody : ∀ (out : Except String Obj),
      applyEntry rs m field p = out →
      mergeWithPriority rs [(field, p)] = out.map Json.obj := by
    intro out hout
    unfold mergeWithPriority
    rw [hm, ebind_ok, List.foldlM_cons]
    simp only [List.foldlM_nil]
    rw [hout]
    cases out with
    | error e => rfl
    | ok o => rw [ebind_ok]; rfl
  have happ : applyEntry rs m field p = (do
      let cls ← classify m path
      let mem ← pyContains page last
      if mem then do
        let v ← pyGetItem page last
        match cls with
        | .live => .ok (setPathLive m path last v)
        | .lost => .ok m
        | .nondict => .error "TypeError: object does not support item assignment"
      else .ok m) := by
    unfold applyEntry
    rw [if_pos hp, hpage, ebind_ok, hsplit]
    simp only [List.dropLast_concat, List.getLastD_concat]
  constructor
  · intro v hcls hmem hget
    have hout : applyEntry rs m field p = .ok m := by
      rw [happ, hcls, ebind_ok, hmem, ebind_ok, if_pos rfl, hget, ebind_ok]
    rw [hbody _ hout, emap_ok]
  · intro v hcls hmem hget
    refine ⟨?_, getAtPath_setPathLive m path last v hcls⟩
    have hout : applyEntry rs m field p = .ok (setPathLive m path last v) := by
      rw [happ, hcls, ebind_ok, hmem, ebind_ok, if_pos rfl, hget, ebind_ok]
    rw [hbody _ hout, emap_ok]

/-- Witness for C1's amended theorem: a live priority write at
`insured_info.name` overwrites the merged value with the page's
top-level `name` value. -/
theorem C1_priority_merge_witness :
    mergeWithPriority
        [.obj [("name", .str "Zed"),
               ("insured_info", .obj [("name", .str "Alice")])]]
        [("insured_info.name", 1)] =
      .ok (.obj (setPathLive (stdRecord [] [("name", .str "Alice")] [] [] [] [])
        ["insured_info"] "name" (.str "Zed"))) ∧
    getAtPath (setPathLive (stdRecord [] [("name", .str "Alice")] [] [] [] [])
        ["insured_info"] "name" (.str "Zed")) ["insured_info", "name"] =
      some (.str "Zed") :=
  (C1_priority_merge
    [.obj [("name", .str "Zed"),
           ("insured_info", .obj [("name", .str "Alice")])]]
    "insured_info.name" 1
    (stdRecord [] [("name", .str "Alice")] [] [] [] [])
    (.obj [("name", .str "Zed"),
           ("insured_info", .obj [("name", .str "Alice")])])
    ["insured_info"] "name"
    (by decide) rfl (by decide) rfl).2 (.str "Zed") rfl rfl rfl

end OCRIns
